import Mathlib

/-!
Verification development for the "pebble-says" memory-sequence game
(src/pebble-says/src/c/pebble_says.c).

The C program is a single-threaded, timer-driven state machine over global
mutable state.  We embed it shallowly: the global variables become the fields
of `GState`, every C function that touches game state becomes a Lean function
`GState → GState`, and the host timer service (`app_timer_register` /
`app_timer_cancel`) is modelled explicitly by a list of pending timers with
fresh numeric handles.  Presentation and haptic effects (`show_message`,
`highlight_glyph`, `vibes_*`) are recorded in an event trace, so that claims
about what is presented and in which order can be stated as trace equalities.
Purely graphical code (`apply_layout`, layer frames, colors, `layer_mark_dirty`,
window plumbing) has no game-state effect and is not modelled.
-/

set_option maxHeartbeats 1000000

/-- MAX_SEQUENCE from the C source. -/
def MAX_SEQUENCE : Nat := 8

/-- SHOW_MS: base show duration (ms). -/
def SHOW_MS : Int := 700

/-- PAUSE_MS: fixed pause between steps (ms). -/
def PAUSE_MS : Nat := 300

/-- Haptic pulse kinds (vibes_short_pulse / vibes_double_pulse / vibes_long_pulse). -/
inductive Vibe where
  | short
  | double
  | long
deriving DecidableEq, Repr

/-- Presentation / haptic events emitted by the core.
`msg` is a `text_layer_set_text` on the central text layer via `show_message`,
`glyph` is a highlight change of one of the three button glyphs via
`highlight_glyph`, `vibe` is a haptic pulse. -/
inductive Ev where
  | msg (s : String)
  | glyph (idx : Nat) (lit : Bool)
  | vibe (v : Vibe)
deriving DecidableEq, Repr

/-- The distinct timer callbacks appearing in the C source, together with the
context value the C code stashes in the callback data pointer. -/
inductive TimerCb where
  | seqCb
  | clearGlyphCb (idx : Nat)
  | clearFeedbackCb
  | transitionCb
  | flashCb (cycles : Nat)
deriving DecidableEq, Repr

/-- A pending timer of the host timer service: a fresh handle `id`, the delay
it was registered with, and its callback. -/
structure Timer where
  id : Nat
  delay : Nat
  cb : TimerCb
deriving DecidableEq, Repr

/-- Highlight state of the three letter glyphs (Up / Select / Down columns). -/
structure Glyphs where
  up : Bool
  sel : Bool
  down : Bool
deriving DecidableEq, Repr

/-- The global state of the program: one field per C global that carries game
state, plus the pending-timer list of the host timer service, the stream of
`rand()` values, and the presentation trace. -/
structure GState where
  sequence : List Nat
  input_index : Nat
  showing : Bool
  show_index : Nat
  show_phase : Nat
  game_over : Bool
  round : Nat
  transitioning : Bool
  show_ms_current : Int
  flash_phase : Nat
  flash_interval_ms : Nat
  nextId : Nat
  pending : List Timer
  seq_timer : Option Nat
  feedback_timer : Option Nat
  transition_timer : Option Nat
  flash_timer : Option Nat
  rng : List Nat
  msg : String
  info : String
  glyphs : Glyphs
  trace : List Ev
deriving DecidableEq, Repr

/-- `app_timer_register(ms, cb, data)`: arms a fresh timer and returns its
handle.  Handles are never reused, which models the fact that a real
`AppTimer*` for an already-fired timer never compares equal to a live one
armed later (the C code nulls fired handles precisely to keep this true). -/
def app_timer_register (s : GState) (ms : Nat) (cb : TimerCb) : GState × Nat :=
  ({ s with nextId := s.nextId + 1,
            pending := s.pending ++ [⟨s.nextId, ms, cb⟩] }, s.nextId)

/-- `app_timer_cancel(handle)`: removes the timer with that handle, a no-op if
it already fired (its handle is then absent from the pending list). -/
def app_timer_cancel (s : GState) (h : Nat) : GState :=
  { s with pending := s.pending.filter (fun t => t.id != h) }

/-- button_name from the C source. -/
def button_name (b : Nat) : String :=
  if b = 0 then "Up"
  else if b = 1 then "Select"
  else if b = 2 then "Down"
  else "?"

/-- show_message: sets the central text layer and logs the event. -/
def show_message (s : GState) (m : String) : GState :=
  { s with msg := m, trace := s.trace ++ [Ev.msg m] }

/-- Set one component of the glyph-highlight state. -/
def setGlyph (g : Glyphs) (idx : Nat) (lit : Bool) : Glyphs :=
  if idx = 0 then { g with up := lit }
  else if idx = 1 then { g with sel := lit }
  else { g with down := lit }

/-- highlight_glyph: guarded exactly like the C function (out-of-range indices
are silently ignored); a real highlight change is logged as an event.  The
`s_glyph_layers[idx]` null check always passes after window load. -/
def highlight_glyph (s : GState) (idx : Nat) (lit : Bool) : GState :=
  if 2 < idx then s
  else { s with glyphs := setGlyph s.glyphs idx lit,
                trace := s.trace ++ [Ev.glyph idx lit] }

/-- Log a haptic pulse. -/
def vibe (s : GState) (v : Vibe) : GState :=
  { s with trace := s.trace ++ [Ev.vibe v] }

/-- update_info_layer from the C source (the info text layer). -/
def update_info_layer (s : GState) : GState :=
  if s.game_over then
    if s.sequence.length = 0 then { s with info := "" }
    else { s with info := "Press Select to Restart\nRound: " ++ toString s.round }
  else { s with info := "Round: " ++ toString s.round }

/-- add_random_step: appends `rand() % 3` if below MAX_SEQUENCE, else no-op.
The `rand()` stream is modelled by the `rng` field. -/
def add_random_step (s : GState) : GState :=
  if s.sequence.length < MAX_SEQUENCE then
    { s with sequence := s.sequence ++ [s.rng.headD 0 % 3], rng := s.rng.tail }
  else s

/-- calc_show_ms from the C source (C `int` arithmetic, no overflow in range). -/
def calc_show_ms (len : Int) : Int :=
  let ms : Int :=
    if len ≤ 1 then SHOW_MS
    else if len ≤ 3 then SHOW_MS - 60 * (len - 1)
    else SHOW_MS - 60 * 2 - 35 * (len - 3)
  if ms < 200 then 200 else ms

/-- schedule_sequence_timer: cancels the stored sequence timer (if any) and
arms a new one, storing its handle. -/
def schedule_sequence_timer (s : GState) (ms : Nat) : GState :=
  let s₁ := match s.seq_timer with
    | some h => app_timer_cancel s h
    | none => s
  let p := app_timer_register s₁ ms TimerCb.seqCb
  { p.1 with seq_timer := some p.2 }

/-- sequence_timer_callback: one tick of the playback engine.  The C callback
first nulls `s_sequence_timer` (the arming timer has just fired). -/
def sequence_timer_callback (s : GState) : GState :=
  let s := { s with seq_timer := none }
  if !s.showing then s
  else if s.sequence.length ≤ s.show_index then
    let s := { s with showing := false }
    let s := highlight_glyph s 0 false
    let s := highlight_glyph s 1 false
    let s := highlight_glyph s 2 false
    show_message s "Your turn"
  else if s.show_phase = 0 then
    let step := s.sequence.getD s.show_index 0
    let s := show_message s (button_name step)
    let s := highlight_glyph s step true
    let s := { s with show_phase := 1 }
    schedule_sequence_timer s s.show_ms_current.toNat
  else
    let s := show_message s ""
    let prev := s.sequence.getD s.show_index 0
    let s := highlight_glyph s prev false
    let s := { s with show_phase := 0, show_index := s.show_index + 1 }
    schedule_sequence_timer s PAUSE_MS

/-- start_show_sequence: resets the show cursor, drops any stale stored
sequence-timer handle without cancelling it, and runs the first tick
synchronously. -/
def start_show_sequence (s : GState) : GState :=
  let s := { s with showing := true, show_index := 0, show_phase := 0,
                    transitioning := false, seq_timer := none }
  sequence_timer_callback s

/-- begin_round from the C source. -/
def begin_round (s : GState) : GState :=
  let s := { s with input_index := 0, show_index := 0, show_phase := 0,
                    showing := true, game_over := false, transitioning := false,
                    round := s.sequence.length,
                    show_ms_current := calc_show_ms s.sequence.length }
  let s := update_info_layer s
  start_show_sequence s

/-- end_game from the C source. -/
def end_game (s : GState) : GState :=
  let s := { s with game_over := true, showing := false }
  let s := match s.seq_timer with
    | some h => { app_timer_cancel s h with seq_timer := none }
    | none => s
  let s := update_info_layer s
  show_message s "Game Over"

/-- clear_feedback_callback: restores the "Your turn" prompt. -/
def clear_feedback_callback (s : GState) : GState :=
  show_message s "Your turn"

/-- clear_glyph_callback: clears the press-feedback highlight and nulls the
feedback-timer handle. -/
def clear_glyph_callback (s : GState) (idx : Nat) : GState :=
  let s := highlight_glyph s idx false
  { s with feedback_timer := none }

/-- start_flash_animation (non-Chalk build: 140 ms tick interval). -/
def start_flash_animation (s : GState) (cycles : Nat) : GState :=
  let s := { s with flash_phase := 0, flash_interval_ms := 140 }
  let s := match s.flash_timer with
    | some h => app_timer_cancel s h
    | none => s
  let p := app_timer_register s s.flash_interval_ms (TimerCb.flashCb cycles)
  { p.1 with flash_timer := some p.2 }

/-- flash_animation_tick from the C source. -/
def flash_animation_tick (s : GState) (cycles : Nat) : GState :=
  let s := { s with flash_phase := s.flash_phase + 1 }
  if cycles ≤ s.flash_phase then { s with flash_timer := none }
  else
    let p := app_timer_register s s.flash_interval_ms (TimerCb.flashCb cycles)
    { p.1 with flash_timer := some p.2 }

/-- start_round_transition from the C source. -/
def start_round_transition (s : GState) : GState :=
  let s := { s with transitioning := true, showing := false }
  let s := vibe s Vibe.double
  let s :=
    if s.sequence.length = 4 ∨ s.sequence.length = 6 then vibe s Vibe.short
    else if s.sequence.length = 8 then vibe s Vibe.long
    else s
  let s := show_message s ("Length " ++ toString s.sequence.length)
  let cycles : Nat :=
    if s.sequence.length = 4 ∨ s.sequence.length = 6 then 5
    else if s.sequence.length = 8 then 7
    else 3
  let s := start_flash_animation s cycles
  let s := match s.transition_timer with
    | some h => app_timer_cancel s h
    | none => s
  let duration := 150 * cycles + 200
  let p := app_timer_register s duration TimerCb.transitionCb
  { p.1 with transition_timer := some p.2 }

/-- round_transition_callback from the C source. -/
def round_transition_callback (s : GState) : GState :=
  let s := { s with transition_timer := none }
  let s := match s.flash_timer with
    | some h => { app_timer_cancel s h with flash_timer := none }
    | none => s
  let s := { s with flash_phase := 0 }
  begin_round s

/-- handle_input from the C source (the Input Judge). -/
def handle_input (s : GState) (pressed : Nat) : GState :=
  if s.showing then s
  else if s.transitioning then s
  else if s.game_over then s
  else if s.sequence.length ≤ s.input_index then s
  else
    let s := highlight_glyph s pressed true
    let s := match s.feedback_timer with
      | some h => { app_timer_cancel s h with feedback_timer := none }
      | none => s
    let p := app_timer_register s 150 (TimerCb.clearGlyphCb pressed)
    let s := { p.1 with feedback_timer := some p.2 }
    if pressed = s.sequence.getD s.input_index 0 then
      let s := vibe s Vibe.short
      let s : GState := { s with input_index := s.input_index + 1 }
      if s.input_index = s.sequence.length then
        if MAX_SEQUENCE ≤ s.sequence.length then
          let s := { s with game_over := true }
          let s := update_info_layer s
          show_message s "You win!"
        else
          let s := add_random_step s
          let s := { s with round := s.sequence.length }
          let s := update_info_layer s
          start_round_transition s
      else
        let s := show_message s "Good"
        (app_timer_register s 200 TimerCb.clearFeedbackCb).1
    else
      let s := vibe s Vibe.long
      end_game s

/-- prv_select_click_handler from the C source. -/
def on_select_press (s : GState) : GState :=
  if s.game_over then
    let s := { s with sequence := [], round := 0 }
    let s := add_random_step s
    begin_round s
  else handle_input s 1

/-- prv_up_click_handler from the C source. -/
def on_up_press (s : GState) : GState :=
  handle_input s 0

/-- prv_down_click_handler from the C source. -/
def on_down_press (s : GState) : GState :=
  handle_input s 2

/-- The state after `prv_init` and `prv_window_load`: fresh global values as
declared in the C file, start-screen text, info layer refreshed, all glyph
highlights off.  The `rand()` stream is a parameter. -/
def init_state (rng : List Nat) : GState :=
  { sequence := [], input_index := 0, showing := false, show_index := 0,
    show_phase := 0, game_over := true, round := 0, transitioning := false,
    show_ms_current := SHOW_MS, flash_phase := 0, flash_interval_ms := 150,
    nextId := 0, pending := [], seq_timer := none, feedback_timer := none,
    transition_timer := none, flash_timer := none, rng := rng,
    msg := "Press Select", info := "", glyphs := ⟨false, false, false⟩,
    trace := [] }

/-- Dispatch a fired timer to its C callback. -/
def run_cb (s : GState) : TimerCb → GState
  | TimerCb.seqCb => sequence_timer_callback s
  | TimerCb.clearGlyphCb i => clear_glyph_callback s i
  | TimerCb.clearFeedbackCb => clear_feedback_callback s
  | TimerCb.transitionCb => round_transition_callback s
  | TimerCb.flashCb c => flash_animation_tick s c

/-- Fire a pending timer: the host removes it from the pending set (it has
elapsed) and then invokes its callback. -/
def fire_timer (s : GState) (t : Timer) : GState :=
  run_cb { s with pending := s.pending.filter (fun u => u.id != t.id) } t.cb

/-- Fire the sequence timer currently stored in the playback engine's handle
slot, if that handle is still pending; otherwise no-op.  This is the
deterministic "let the playback timer elapse" step. -/
def fire_seq (s : GState) : GState :=
  match s.seq_timer with
  | none => s
  | some h =>
    match s.pending.find? (fun t => t.id == h) with
    | none => s
    | some t => fire_timer s t

/-- Fire the round-transition timer stored in its handle slot, if pending. -/
def fire_transition (s : GState) : GState :=
  match s.transition_timer with
  | none => s
  | some h =>
    match s.pending.find? (fun t => t.id == h) with
    | none => s
    | some t => fire_timer s t

/-- Reachable states: the initial state, button presses, and firing any
pending timer.  Allowing pending timers to fire in any order over-approximates
the real delay-ordered delivery, so invariants proved over `Reachable` hold in
particular for every real execution. -/
inductive Reachable : GState → Prop where
  | init (rng : List Nat) : Reachable (init_state rng)
  | select {s : GState} : Reachable s → Reachable (on_select_press s)
  | up {s : GState} : Reachable s → Reachable (on_up_press s)
  | down {s : GState} : Reachable s → Reachable (on_down_press s)
  | fire {s : GState} {t : Timer} : Reachable s → t ∈ s.pending →
      Reachable (fire_timer s t)

/-- A concrete schedulable action, used to drive explicit executions. -/
inductive Act where
  | sel
  | up
  | down
  | fire (i : Nat)
deriving DecidableEq, Repr

/-- Perform one action; `fire i` fires the i-th pending timer (no-op if out of
range). -/
def stepAct (s : GState) : Act → GState
  | Act.sel => on_select_press s
  | Act.up => on_up_press s
  | Act.down => on_down_press s
  | Act.fire i =>
    match s.pending.get? i with
    | some t => fire_timer s t
    | none => s

/-- Run a list of actions from a state. -/
def runActs (s : GState) : List Act → GState
  | [] => s
  | a :: rest => runActs (stepAct s a) rest

/-- The trace fragment of one display cue for step `b`. -/
def displayEv (b : Nat) : List Ev :=
  [Ev.msg (button_name b), Ev.glyph b true]

/-- The trace fragment of one pause cue after showing step `b`. -/
def pauseEv (b : Nat) : List Ev :=
  [Ev.msg "", Ev.glyph b false]

/-- The trace fragment of entering AwaitingInput: all glyph cues cleared and
the prompt shown. -/
def finishEv : List Ev :=
  [Ev.glyph 0 false, Ev.glyph 1 false, Ev.glyph 2 false, Ev.msg "Your turn"]

/-- The full expected playback trace for a sequence: a (display, pause) cue
pair per step, in order. -/
def pairsEv (l : List Nat) : List Ev :=
  (l.map (fun b => displayEv b ++ pauseEv b)).flatten

/-- Timer categories as named by the specification: 0 = sequence/playback,
1 = input-feedback, 2 = round-transition, 3 = flash.  Both the glyph-clear
timer and the "Good"-prompt-revert timer serve input feedback, so both fall
in category 1. -/
def catOf : TimerCb → Nat
  | TimerCb.seqCb => 0
  | TimerCb.clearGlyphCb _ => 1
  | TimerCb.clearFeedbackCb => 1
  | TimerCb.transitionCb => 2
  | TimerCb.flashCb _ => 3

/-- Timer categories refined to track the untracked prompt-revert timer
separately: the anonymous 200 ms "Good"-revert timer (registered without a
stored handle at line 359 of the C source) gets its own category 4. -/
def catOf' : TimerCb → Nat
  | TimerCb.seqCb => 0
  | TimerCb.clearGlyphCb _ => 1
  | TimerCb.clearFeedbackCb => 4
  | TimerCb.transitionCb => 2
  | TimerCb.flashCb _ => 3

/-! ## Helper lemmas -/

/-- Input is silently dropped (state returned unchanged) whenever the session
is showing, transitioning, or game-over. -/
theorem handle_input_ignored (s : GState) (c : Nat)
    (h : s.showing = true ∨ s.transitioning = true ∨ s.game_over = true) :
    handle_input s c = s := by
  unfold handle_input
  rcases h with h | h | h <;> simp [h]

/-! ## C5: timing policy -/

/-- C5: `calc_show_ms` is the three-segment piecewise formula floored at
200 ms, and on lengths 1..8 it is at least 200 and monotonically
non-increasing. -/
theorem calc_show_ms_spec (len : Int) (L : Nat) (h1 : 1 ≤ L) (h8 : L ≤ 8) :
    calc_show_ms len =
      max 200 (if len ≤ 1 then 700
               else if len ≤ 3 then 700 - 60 * (len - 1)
               else 700 - 120 - 35 * (len - 3)) ∧
    200 ≤ calc_show_ms (L : Int) ∧
    (L < 8 → calc_show_ms ((L : Int) + 1) ≤ calc_show_ms (L : Int)) := by
  refine ⟨?_, ?_, ?_⟩
  · simp only [calc_show_ms, SHOW_MS, max_def]
    split_ifs <;> omega
  · simp only [calc_show_ms, SHOW_MS]
    split_ifs <;> omega
  · intro hlt
    simp only [calc_show_ms, SHOW_MS]
    split_ifs <;> omega

/-- Witness for C5 at len = 5, L = 4. -/
theorem calc_show_ms_spec_witness :
    calc_show_ms 5 =
      max 200 (if (5 : Int) ≤ 1 then 700
               else if (5 : Int) ≤ 3 then 700 - 60 * (5 - 1)
               else 700 - 120 - 35 * (5 - 3)) ∧
    200 ≤ calc_show_ms ((4 : Nat) : Int) ∧
    ((4 : Nat) < 8 → calc_show_ms (((4 : Nat) : Int) + 1) ≤ calc_show_ms ((4 : Nat) : Int)) :=
  calc_show_ms_spec 5 4 (by decide) (by decide)

/-! ## C7: frame property of ignored input -/

/-- C7: while showing, transitioning, or game-over, UP and DOWN presses leave
the whole state unchanged (silently dropped), and SELECT is likewise inert
unless the session is game-over. -/
theorem ignored_input_frame (s : GState)
    (h : s.showing = true ∨ s.transitioning = true ∨ s.game_over = true) :
    on_up_press s = s ∧ on_down_press s = s ∧
    (s.game_over = false → on_select_press s = s) := by
  refine ⟨?_, ?_, fun hgo => ?_⟩
  · unfold on_up_press handle_input
    rcases h with h | h | h <;> simp [h]
  · unfold on_down_press handle_input
    rcases h with h | h | h <;> simp [h]
  · unfold on_select_press handle_input
    rcases h with h | h | h
    · simp [h, hgo]
    · simp [h, hgo]
    · rw [h] at hgo
      simp at hgo

/-- Witness for C7 at a game-over start state. -/
theorem ignored_input_frame_witness :
    ((init_state []).showing = true ∨ (init_state []).transitioning = true ∨
      (init_state []).game_over = true) ∧
    (on_up_press (init_state []) = init_state [] ∧
     on_down_press (init_state []) = init_state [] ∧
     ((init_state []).game_over = false → on_select_press (init_state []) = init_state [])) :=
  ⟨Or.inr (Or.inr rfl), ignored_input_frame (init_state []) (Or.inr (Or.inr rfl))⟩

/-! ## C6: fresh session and SELECT restart -/

/-- C6: a freshly initialized session has length 0, round 0 and game-over;
SELECT in any game-over state resets the sequence, appends exactly one step
and begins the round: length 1, round 1, showing. -/
theorem fresh_session_and_restart (rng : List Nat) (s : GState)
    (hgo : s.game_over = true) :
    (init_state rng).sequence.length = 0 ∧ (init_state rng).round = 0 ∧
    (init_state rng).game_over = true ∧
    (on_select_press s).sequence = [s.rng.headD 0 % 3] ∧
    (on_select_press s).sequence.length = 1 ∧
    (on_select_press s).round = 1 ∧
    (on_select_press s).showing = true ∧
    (on_select_press s).game_over = false := by
  have h3 : ∀ n : Nat, ¬ (2 < n % 3) := fun n => by omega
  refine ⟨rfl, rfl, rfl, ?_, ?_, ?_, ?_, ?_⟩ <;>
  · unfold on_select_press add_random_step begin_round update_info_layer
      start_show_sequence sequence_timer_callback schedule_sequence_timer
      app_timer_register show_message highlight_glyph
    simp [hgo, h3, MAX_SEQUENCE]

/-- Witness for C6 at the initial state with rand stream headed by 2. -/
theorem fresh_session_and_restart_witness :
    (init_state [2, 0]).game_over = true ∧
    ((init_state []).sequence.length = 0 ∧ (init_state []).round = 0 ∧
     (init_state []).game_over = true ∧
     (on_select_press (init_state [2, 0])).sequence = [(init_state [2, 0]).rng.headD 0 % 3] ∧
     (on_select_press (init_state [2, 0])).sequence.length = 1 ∧
     (on_select_press (init_state [2, 0])).round = 1 ∧
     (on_select_press (init_state [2, 0])).showing = true ∧
     (on_select_press (init_state [2, 0])).game_over = false) :=
  ⟨rfl, fresh_session_and_restart [] (init_state [2, 0]) rfl⟩

/-! ## C2: wrong press enters game over -/

/-- C2: pressing a button different from the expected step in an
input-accepting state sets game-over, clears showing, cancels any pending
sequence timer, and presents "Game Over"; sequence, input cursor and round
are unchanged. -/
theorem wrong_press_game_over (s : GState) (b : Nat)
    (hsh : s.showing = false) (htr : s.transitioning = false)
    (hgo : s.game_over = false) (hidx : s.input_index < s.sequence.length)
    (hb3 : b < 3) (hw : b ≠ s.sequence.getD s.input_index 0)
    (hseq : ∀ t ∈ s.pending, t.cb = TimerCb.seqCb → s.seq_timer = some t.id) :
    (handle_input s b).game_over = true ∧
    (handle_input s b).showing = false ∧
    (handle_input s b).msg = "Game Over" ∧
    (∀ t ∈ (handle_input s b).pending, t.cb ≠ TimerCb.seqCb) ∧
    (handle_input s b).sequence = s.sequence ∧
    (handle_input s b).input_index = s.input_index ∧
    (handle_input s b).round = s.round := by
  have h1 : ¬ (s.sequence.length ≤ s.input_index) := by omega
  have h2 : ¬ (2 < b) := by omega
  have h4 : ¬ (s.sequence.length = 0) := by omega
  have hw' : ¬ (b = s.sequence[s.input_index]?.getD 0) := by
    simpa [List.getD] using hw
  unfold handle_input end_game update_info_layer show_message highlight_glyph vibe
    app_timer_register app_timer_cancel
  cases hfb : s.feedback_timer with
  | none =>
    cases hst : s.seq_timer with
    | none =>
      simp [hsh, htr, hgo, h1, h2, h4, hw', hfb, hst]
      rintro t (ht | rfl) hc
      · simpa [hst] using hseq t ht hc
      · simp at hc
    | some hh =>
      simp [hsh, htr, hgo, h1, h2, h4, hw', hfb, hst]
      rintro t (⟨ht, hne⟩ | ⟨rfl, _⟩) hc
      · have h5 := hseq t ht hc
        rw [hst] at h5
        simp at h5
        omega
      · simp at hc
  | some hf =>
    cases hst : s.seq_timer with
    | none =>
      simp [hsh, htr, hgo, h1, h2, h4, hw', hfb, hst]
      rintro t (⟨ht, _⟩ | rfl) hc
      · simpa [hst] using hseq t ht hc
      · simp at hc
    | some hh =>
      simp [hsh, htr, hgo, h1, h2, h4, hw', hfb, hst]
      rintro t (⟨ht, hne, _⟩ | ⟨rfl, _⟩) hc
      · have h5 := hseq t ht hc
        rw [hst] at h5
        simp at h5
        omega
      · simp at hc

/-- A concrete input-accepting session used by witnesses: one-step sequence
[1] awaiting its first input. -/
def wState : GState :=
  { init_state [] with sequence := [1], game_over := false }

/-- Witness for C2: pressing UP (0) against expected SELECT (1). -/
theorem wrong_press_game_over_witness :
    ((0 : Nat) ≠ wState.sequence.getD wState.input_index 0 ∧
     wState.game_over = false ∧
     wState.input_index < wState.sequence.length) ∧
    (handle_input wState 0).game_over = true ∧
    (handle_input wState 0).msg = "Game Over" ∧
    (handle_input wState 0).sequence = wState.sequence := by
  have h := wrong_press_game_over wState 0 rfl rfl rfl (by decide) (by decide)
    (by decide) (by decide)
  exact ⟨⟨by decide, rfl, by decide⟩, h.1, h.2.2.1, h.2.2.2.2.1⟩

/-! ## C4: win at maximum length -/

/-- C4: entering the correct final step at the maximum length 8 sets
game-over with the "You win!" presentation, appends nothing (length stays 8),
and the resulting state ignores all further `handle_input` presses. -/
theorem max_length_win (s : GState) (b : Nat)
    (hsh : s.showing = false) (htr : s.transitioning = false)
    (hgo : s.game_over = false) (hlen : s.sequence.length = 8)
    (hidx : s.input_index + 1 = s.sequence.length)
    (hb : b = s.sequence.getD s.input_index 0) (hb3 : b < 3) :
    (handle_input s b).game_over = true ∧
    (handle_input s b).msg = "You win!" ∧
    (handle_input s b).sequence = s.sequence ∧
    (handle_input s b).sequence.length = 8 ∧
    (handle_input s b).showing = false ∧
    (handle_input s b).transitioning = false ∧
    (∀ c, handle_input (handle_input s b) c = handle_input s b) := by
  have h1 : ¬ (s.sequence.length ≤ s.input_index) := by omega
  have h2 : ¬ (2 < b) := by omega
  have h4 : ¬ (s.sequence.length = 0) := by omega
  have hb' : s.sequence[s.input_index]?.getD 0 = b := by
    have := hb.symm
    simpa [List.getD] using this
  have hmax : MAX_SEQUENCE ≤ s.sequence.length := by rw [hlen]; decide
  have hkey : (handle_input s b).game_over = true ∧
      (handle_input s b).showing = false ∧
      (handle_input s b).transitioning = false ∧
      (handle_input s b).msg = "You win!" ∧
      (handle_input s b).sequence = s.sequence := by
    unfold handle_input update_info_layer show_message highlight_glyph vibe
      app_timer_register app_timer_cancel
    cases hfb : s.feedback_timer <;>
      simp [hsh, htr, hgo, h1, h2, h4, hb', hidx, hmax, hfb]
  exact ⟨hkey.1, hkey.2.2.2.1, hkey.2.2.2.2, by rw [hkey.2.2.2.2, hlen],
    hkey.2.1, hkey.2.2.1,
    fun c => handle_input_ignored _ c (Or.inr (Or.inr hkey.1))⟩

/-- A concrete session at maximum length with seven correct inputs already
entered, used as the C4 witness state. -/
def winState : GState :=
  { init_state [] with sequence := [0, 1, 2, 0, 1, 2, 0, 1], input_index := 7,
                       game_over := false }

/-- Witness for C4: the eighth correct press (SELECT = 1) wins. -/
theorem max_length_win_witness :
    (winState.sequence.length = 8 ∧
     winState.input_index + 1 = winState.sequence.length ∧
     (1 : Nat) = winState.sequence.getD winState.input_index 0) ∧
    (handle_input winState 1).game_over = true ∧
    (handle_input winState 1).msg = "You win!" ∧
    (handle_input winState 1).sequence = winState.sequence ∧
    handle_input (handle_input winState 1) 2 = handle_input winState 1 := by
  have h := max_length_win winState 1 rfl rfl rfl (by decide) (by decide)
    (by decide) (by decide)
  exact ⟨⟨by decide, by decide, by decide⟩, h.1, h.2.1, h.2.2.1, h.2.2.2.2.2.2 2⟩

/-! ## C1: playback presents the cue pairs in order -/

/-- Valid-index reads of a sequence whose entries are button codes stay
below 3. -/
theorem getD_lt_three {l : List Nat} {i : Nat} (hv : ∀ x ∈ l, x < 3)
    (hi : i < l.length) : l.getD i 0 < 3 := by
  rw [List.getD_eq_getElem l 0 hi]
  exact hv _ (List.getElem_mem hi)

/-- Firing the stored sequence timer when it is the only pending timer runs
the playback callback on the state with an empty pending list. -/
theorem fire_seq_eq_callback (s : GState) (h m : Nat)
    (hp : s.pending = [⟨h, m, TimerCb.seqCb⟩]) (hst : s.seq_timer = some h) :
    fire_seq s = sequence_timer_callback { s with pending := [] } := by
  unfold fire_seq fire_timer run_cb
  rw [hst, hp]
  simp

/-- Playback tick in the Display phase: presents the current step, arms the
show-duration timer, moves to the Pause phase. -/
theorem callback_display (s : GState) (hs : s.showing = true)
    (hph : s.show_phase = 0) (hlt : s.show_index < s.sequence.length)
    (hv : s.sequence.getD s.show_index 0 < 3) :
    sequence_timer_callback s = { s with
      show_phase := 1,
      seq_timer := some s.nextId, nextId := s.nextId + 1,
      pending := s.pending ++ [⟨s.nextId, s.show_ms_current.toNat, TimerCb.seqCb⟩],
      msg := button_name (s.sequence.getD s.show_index 0),
      glyphs := setGlyph s.glyphs (s.sequence.getD s.show_index 0) true,
      trace := s.trace ++ displayEv (s.sequence.getD s.show_index 0) } := by
  have h1 : ¬ (s.sequence.length ≤ s.show_index) := by omega
  have h2 : ¬ (2 < s.sequence.getD s.show_index 0) := by omega
  rw [show s.sequence.getD s.show_index 0 = s.sequence[s.show_index]?.getD 0 from
    by simp [List.getD]] at h2 ⊢
  unfold sequence_timer_callback schedule_sequence_timer app_timer_register
    show_message highlight_glyph
  simp [hs, hph, h1, h2, displayEv, List.getD]

/-- Playback tick in the Pause phase: clears the cue, advances the show
cursor, arms the fixed pause timer. -/
theorem callback_pause (s : GState) (hs : s.showing = true)
    (hph : ¬ (s.show_phase = 0)) (hlt : s.show_index < s.sequence.length)
    (hv : s.sequence.getD s.show_index 0 < 3) :
    sequence_timer_callback s = { s with
      show_phase := 0, show_index := s.show_index + 1,
      seq_timer := some s.nextId, nextId := s.nextId + 1,
      pending := s.pending ++ [⟨s.nextId, PAUSE_MS, TimerCb.seqCb⟩],
      msg := "",
      glyphs := setGlyph s.glyphs (s.sequence.getD s.show_index 0) false,
      trace := s.trace ++ pauseEv (s.sequence.getD s.show_index 0) } := by
  have h1 : ¬ (s.sequence.length ≤ s.show_index) := by omega
  have h2 : ¬ (2 < s.sequence.getD s.show_index 0) := by omega
  rw [show s.sequence.getD s.show_index 0 = s.sequence[s.show_index]?.getD 0 from
    by simp [List.getD]] at h2 ⊢
  unfold sequence_timer_callback schedule_sequence_timer app_timer_register
    show_message highlight_glyph
  simp [hs, hph, h1, h2, pauseEv, List.getD]

/-- Playback tick past the last step: ends showing, clears all cues, prompts
"Your turn". -/
theorem callback_finish (s : GState) (hs : s.showing = true)
    (hge : s.sequence.length ≤ s.show_index) :
    sequence_timer_callback s = { s with
      showing := false, seq_timer := none,
      msg := "Your turn",
      glyphs := ⟨false, false, false⟩,
      trace := s.trace ++ finishEv } := by
  unfold sequence_timer_callback show_message highlight_glyph
  simp [hs, hge, finishEv, setGlyph]

/-- Unfolding of the expected cue-pair trace. -/
theorem pairsEv_cons (a : Nat) (l : List Nat) :
    pairsEv (a :: l) = displayEv a ++ pauseEv a ++ pairsEv l := by
  simp [pairsEv, List.append_assoc]

/-- Mid-playback loop: from the Pause phase right after displaying step
`show_index`, with `r + 1` steps left to finish and the armed show timer being
the only pending timer, `2 * (r + 1)` timer firings deliver the remaining
pause/display cue pairs in order and end in AwaitingInput. -/
theorem playback_loop (r : Nat) : ∀ (s : GState) (h m : Nat),
    s.showing = true → s.show_phase = 1 →
    s.show_index + (r + 1) = s.sequence.length →
    (∀ x ∈ s.sequence, x < 3) →
    s.pending = [⟨h, m, TimerCb.seqCb⟩] → s.seq_timer = some h →
    fire_seq^[2 * (r + 1)] s = { s with
      showing := false, show_index := s.sequence.length, show_phase := 0,
      seq_timer := none, pending := [], nextId := s.nextId + (2 * r + 1),
      msg := "Your turn", glyphs := ⟨false, false, false⟩,
      trace := s.trace ++ pauseEv (s.sequence.getD s.show_index 0)
               ++ pairsEv (s.sequence.drop (s.show_index + 1)) ++ finishEv } := by
  induction r with
  | zero =>
    intro s h m hs hph hlen hv hp hst
    have hlt : s.show_index < s.sequence.length := by omega
    have hg1 : s.sequence.getD s.show_index 0 < 3 := getD_lt_three hv hlt
    have hge : s.sequence.length ≤ s.show_index + 1 := by omega
    have e1 : fire_seq s = { s with
        show_phase := 0, show_index := s.show_index + 1,
        seq_timer := some s.nextId, nextId := s.nextId + 1,
        pending := [⟨s.nextId, PAUSE_MS, TimerCb.seqCb⟩],
        msg := "",
        glyphs := setGlyph s.glyphs (s.sequence.getD s.show_index 0) false,
        trace := s.trace ++ pauseEv (s.sequence.getD s.show_index 0) } := by
      rw [fire_seq_eq_callback s h m hp hst]
      exact callback_pause { s with pending := [] } hs (by simp [hph]) hlt hg1
    have e2 : fire_seq (fire_seq s) = { s with
        showing := false, show_phase := 0, show_index := s.show_index + 1,
        seq_timer := none, nextId := s.nextId + 1, pending := [],
        msg := "Your turn", glyphs := ⟨false, false, false⟩,
        trace := s.trace ++ pauseEv (s.sequence.getD s.show_index 0)
                 ++ finishEv } := by
      rw [e1]
      rw [fire_seq_eq_callback _ s.nextId PAUSE_MS rfl rfl]
      exact callback_finish _ hs hge
    rw [show 2 * (0 + 1) = 1 + 1 by ring, Function.iterate_add_apply]
    simp only [Function.iterate_one]
    rw [e2]
    rw [List.drop_eq_nil_of_le (show s.sequence.length ≤ s.show_index + 1 by omega)]
    rw [show s.sequence.length = s.show_index + 1 from by omega]
    simp [pairsEv, List.append_assoc]
  | succ r ih =>
    intro s h m hs hph hlen hv hp hst
    have hlt : s.show_index < s.sequence.length := by omega
    have hg1 : s.sequence.getD s.show_index 0 < 3 := getD_lt_three hv hlt
    have hlt2 : s.show_index + 1 < s.sequence.length := by omega
    have hg2 : s.sequence.getD (s.show_index + 1) 0 < 3 := getD_lt_three hv hlt2
    have e1 : fire_seq s = { s with
        show_phase := 0, show_index := s.show_index + 1,
        seq_timer := some s.nextId, nextId := s.nextId + 1,
        pending := [⟨s.nextId, PAUSE_MS, TimerCb.seqCb⟩],
        msg := "",
        glyphs := setGlyph s.glyphs (s.sequence.getD s.show_index 0) false,
        trace := s.trace ++ pauseEv (s.sequence.getD s.show_index 0) } := by
      rw [fire_seq_eq_callback s h m hp hst]
      exact callback_pause { s with pending := [] } hs (by simp [hph]) hlt hg1
    have e2 : fire_seq (fire_seq s) = { s with
        show_phase := 1, show_index := s.show_index + 1,
        seq_timer := some (s.nextId + 1), nextId := s.nextId + 2,
        pending := [⟨s.nextId + 1, s.show_ms_current.toNat, TimerCb.seqCb⟩],
        msg := button_name (s.sequence.getD (s.show_index + 1) 0),
        glyphs := setGlyph (setGlyph s.glyphs (s.sequence.getD s.show_index 0) false)
                  (s.sequence.getD (s.show_index + 1) 0) true,
        trace := s.trace ++ pauseEv (s.sequence.getD s.show_index 0)
                 ++ displayEv (s.sequence.getD (s.show_index + 1) 0) } := by
      rw [e1]
      rw [fire_seq_eq_callback _ s.nextId PAUSE_MS rfl rfl]
      exact callback_display _ hs rfl hlt2 hg2
    have hlen2 : (s.show_index + 1) + (r + 1) = s.sequence.length := by omega
    rw [show 2 * (r + 1 + 1) = 2 * (r + 1) + 1 + 1 by ring,
      Function.iterate_add_apply, Function.iterate_add_apply]
    simp only [Function.iterate_one]
    rw [e2]
    rw [ih { s with
        show_phase := 1, show_index := s.show_index + 1,
        seq_timer := some (s.nextId + 1), nextId := s.nextId + 2,
        pending := [⟨s.nextId + 1, s.show_ms_current.toNat, TimerCb.seqCb⟩],
        msg := button_name (s.sequence.getD (s.show_index + 1) 0),
        glyphs := setGlyph (setGlyph s.glyphs (s.sequence.getD s.show_index 0) false)
                  (s.sequence.getD (s.show_index + 1) 0) true,
        trace := s.trace ++ pauseEv (s.sequence.getD s.show_index 0)
                 ++ displayEv (s.sequence.getD (s.show_index + 1) 0) }
      (s.nextId + 1) s.show_ms_current.toNat hs rfl hlen2 hv rfl rfl]
    rw [List.drop_eq_getElem_cons hlt2, pairsEv_cons,
      ← List.getD_eq_getElem s.sequence 0 hlt2]
    simp [List.append_assoc]
    omega

/-- begin_round on a non-empty sequence: resets cursors and flags, refreshes
the info banner, and synchronously performs the first Display tick, arming the
round's show-duration timer. -/
theorem begin_round_eq (s : GState) (hlen : 1 ≤ s.sequence.length)
    (hg0 : s.sequence.getD 0 0 < 3) :
    begin_round s = { s with
      input_index := 0, show_index := 0, show_phase := 1,
      showing := true, game_over := false, transitioning := false,
      round := s.sequence.length,
      show_ms_current := calc_show_ms s.sequence.length,
      info := "Round: " ++ toString s.sequence.length,
      seq_timer := some s.nextId, nextId := s.nextId + 1,
      pending := s.pending ++
        [⟨s.nextId, (calc_show_ms s.sequence.length).toNat, TimerCb.seqCb⟩],
      msg := button_name (s.sequence.getD 0 0),
      glyphs := setGlyph s.glyphs (s.sequence.getD 0 0) true,
      trace := s.trace ++ displayEv (s.sequence.getD 0 0) } := by
  have h0 : ¬ (s.sequence.length ≤ 0) := by omega
  have h2 : ¬ (2 < s.sequence.getD 0 0) := by omega
  rw [show s.sequence.getD 0 0 = s.sequence[0]?.getD 0 from by simp [List.getD]] at h2 ⊢
  unfold begin_round update_info_layer start_show_sequence sequence_timer_callback
    schedule_sequence_timer app_timer_register show_message highlight_glyph
  simp [h0, h2, displayEv, List.getD]

/-- Mid-playback, the engine stays in the showing state until the final
firing: companion invariant to `playback_loop`. -/
theorem playback_loop_showing (r : Nat) : ∀ (s : GState) (h m : Nat),
    s.showing = true → s.show_phase = 1 →
    s.show_index + (r + 1) = s.sequence.length →
    (∀ x ∈ s.sequence, x < 3) →
    s.pending = [⟨h, m, TimerCb.seqCb⟩] → s.seq_timer = some h →
    ∀ k, k < 2 * (r + 1) → (fire_seq^[k] s).showing = true := by
  induction r with
  | zero =>
    intro s h m hs hph hlen hv hp hst k hk
    have hlt : s.show_index < s.sequence.length := by omega
    have hg1 : s.sequence.getD s.show_index 0 < 3 := getD_lt_three hv hlt
    have e1 : fire_seq s = { s with
        show_phase := 0, show_index := s.show_index + 1,
        seq_timer := some s.nextId, nextId := s.nextId + 1,
        pending := [⟨s.nextId, PAUSE_MS, TimerCb.seqCb⟩],
        msg := "",
        glyphs := setGlyph s.glyphs (s.sequence.getD s.show_index 0) false,
        trace := s.trace ++ pauseEv (s.sequence.getD s.show_index 0) } := by
      rw [fire_seq_eq_callback s h m hp hst]
      exact callback_pause { s with pending := [] } hs (by simp [hph]) hlt hg1
    interval_cases k
    · simpa using hs
    · simp only [Function.iterate_one]
      rw [e1]
      exact hs
  | succ r ih =>
    intro s h m hs hph hlen hv hp hst k hk
    have hlt : s.show_index < s.sequence.length := by omega
    have hg1 : s.sequence.getD s.show_index 0 < 3 := getD_lt_three hv hlt
    have hlt2 : s.show_index + 1 < s.sequence.length := by omega
    have hg2 : s.sequence.getD (s.show_index + 1) 0 < 3 := getD_lt_three hv hlt2
    have e1 : fire_seq s = { s with
        show_phase := 0, show_index := s.show_index + 1,
        seq_timer := some s.nextId, nextId := s.nextId + 1,
        pending := [⟨s.nextId, PAUSE_MS, TimerCb.seqCb⟩],
        msg := "",
        glyphs := setGlyph s.glyphs (s.sequence.getD s.show_index 0) false,
        trace := s.trace ++ pauseEv (s.sequence.getD s.show_index 0) } := by
      rw [fire_seq_eq_callback s h m hp hst]
      exact callback_pause { s with pending := [] } hs (by simp [hph]) hlt hg1
    have e2 : fire_seq (fire_seq s) = { s with
        show_phase := 1, show_index := s.show_index + 1,
        seq_timer := some (s.nextId + 1), nextId := s.nextId + 2,
        pending := [⟨s.nextId + 1, s.show_ms_current.toNat, TimerCb.seqCb⟩],
        msg := button_name (s.sequence.getD (s.show_index + 1) 0),
        glyphs := setGlyph (setGlyph s.glyphs (s.sequence.getD s.show_index 0) false)
                  (s.sequence.getD (s.show_index + 1) 0) true,
        trace := s.trace ++ pauseEv (s.sequence.getD s.show_index 0)
                 ++ displayEv (s.sequence.getD (s.show_index + 1) 0) } := by
      rw [e1]
      rw [fire_seq_eq_callback _ s.nextId PAUSE_MS rfl rfl]
      exact callback_display _ hs rfl hlt2 hg2
    have hlen2 : (s.show_index + 1) + (r + 1) = s.sequence.length := by omega
    match k with
    | 0 => simpa using hs
    | 1 =>
      simp only [Function.iterate_one]
      rw [e1]
      exact hs
    | Nat.succ (Nat.succ n) =>
      rw [Function.iterate_succ_apply, Function.iterate_succ_apply]
      rw [e2]
      exact ih { s with
          show_phase := 1, show_index := s.show_index + 1,
          seq_timer := some (s.nextId + 1), nextId := s.nextId + 2,
          pending := [⟨s.nextId + 1, s.show_ms_current.toNat, TimerCb.seqCb⟩],
          msg := button_name (s.sequence.getD (s.show_index + 1) 0),
          glyphs := setGlyph (setGlyph s.glyphs (s.sequence.getD s.show_index 0) false)
                    (s.sequence.getD (s.show_index + 1) 0) true,
          trace := s.trace ++ pauseEv (s.sequence.getD s.show_index 0)
                   ++ displayEv (s.sequence.getD (s.show_index + 1) 0) }
        (s.nextId + 1) s.show_ms_current.toNat hs rfl hlen2 hv rfl rfl n (by omega)

/-- C1: for a sequence of length L (1 ≤ L ≤ 8), begin_round presents the first
display cue synchronously, stays in the showing state through all 2L timer
firings but the last, and after exactly L (display, pause) cue pairs — in
order, the i-th showing sequence[i] — enters AwaitingInput with cues cleared
and the "Your turn" prompt. -/
theorem playback_presents_pairs (s : GState) (L : Nat)
    (hL : s.sequence.length = L) (h1 : 1 ≤ L) (h8 : L ≤ 8)
    (hv : ∀ x ∈ s.sequence, x < 3) (hp : s.pending = []) :
    (begin_round s).trace = s.trace ++ displayEv (s.sequence.getD 0 0) ∧
    (∀ k, k < 2 * L → (fire_seq^[k] (begin_round s)).showing = true) ∧
    fire_seq^[2 * L] (begin_round s) = { s with
      input_index := 0, show_index := L, show_phase := 0,
      showing := false, game_over := false, transitioning := false,
      round := L, show_ms_current := calc_show_ms L,
      info := "Round: " ++ toString L,
      seq_timer := none, nextId := s.nextId + 2 * L, pending := [],
      msg := "Your turn", glyphs := ⟨false, false, false⟩,
      trace := s.trace ++ pairsEv s.sequence ++ finishEv } := by
  have hlen1 : 1 ≤ s.sequence.length := by omega
  have h0lt : 0 < s.sequence.length := by omega
  have hg0 : s.sequence.getD 0 0 < 3 := getD_lt_three hv h0lt
  have hB := begin_round_eq s hlen1 hg0
  rw [hp] at hB
  simp only [List.nil_append] at hB
  have hlenX : (0 : Nat) + ((L - 1) + 1) = s.sequence.length := by omega
  refine ⟨by rw [hB], ?_, ?_⟩
  · intro k hk
    rw [hB]
    exact playback_loop_showing (L - 1)
      { s with
        input_index := 0, show_index := 0, show_phase := 1,
        showing := true, game_over := false, transitioning := false,
        round := s.sequence.length,
        show_ms_current := calc_show_ms s.sequence.length,
        info := "Round: " ++ toString s.sequence.length,
        seq_timer := some s.nextId, nextId := s.nextId + 1,
        pending := [⟨s.nextId, (calc_show_ms s.sequence.length).toNat, TimerCb.seqCb⟩],
        msg := button_name (s.sequence.getD 0 0),
        glyphs := setGlyph s.glyphs (s.sequence.getD 0 0) true,
        trace := s.trace ++ displayEv (s.sequence.getD 0 0) }
      s.nextId (calc_show_ms s.sequence.length).toNat rfl rfl hlenX hv rfl rfl
      k (by omega)
  · rw [hB]
    rw [show 2 * L = 2 * ((L - 1) + 1) from by omega]
    rw [playback_loop (L - 1)
      { s with
        input_index := 0, show_index := 0, show_phase := 1,
        showing := true, game_over := false, transitioning := false,
        round := s.sequence.length,
        show_ms_current := calc_show_ms s.sequence.length,
        info := "Round: " ++ toString s.sequence.length,
        seq_timer := some s.nextId, nextId := s.nextId + 1,
        pending := [⟨s.nextId, (calc_show_ms s.sequence.length).toNat, TimerCb.seqCb⟩],
        msg := button_name (s.sequence.getD 0 0),
        glyphs := setGlyph s.glyphs (s.sequence.getD 0 0) true,
        trace := s.trace ++ displayEv (s.sequence.getD 0 0) }
      s.nextId (calc_show_ms s.sequence.length).toNat rfl rfl hlenX hv rfl rfl]
    have hpe : pairsEv s.sequence =
        displayEv (s.sequence.getD 0 0) ++ pauseEv (s.sequence.getD 0 0) ++
          pairsEv (s.sequence.drop 1) := by
      conv_lhs => rw [show s.sequence = s.sequence[0] :: s.sequence.drop 1 from by
        rw [← List.drop_eq_getElem_cons h0lt, List.drop_zero]]
      rw [pairsEv_cons, ← List.getD_eq_getElem s.sequence 0 h0lt]
    rw [hpe]
    simp [List.append_assoc, hL]
    omega

/-- A concrete two-step session (sequence [1, 0], nothing pending) for the C1
witness. -/
def c1State : GState :=
  { init_state [] with sequence := [1, 0] }

/-- Witness for C1 at L = 2. -/
theorem playback_presents_pairs_witness :
    (c1State.sequence.length = 2 ∧ c1State.pending = []) ∧
    (begin_round c1State).trace = c1State.trace ++ displayEv (c1State.sequence.getD 0 0) ∧
    (fire_seq^[3] (begin_round c1State)).showing = true ∧
    fire_seq^[2 * 2] (begin_round c1State) = { c1State with
      input_index := 0, show_index := 2, show_phase := 0,
      showing := false, game_over := false, transitioning := false,
      round := 2, show_ms_current := calc_show_ms 2,
      info := "Round: " ++ toString 2,
      seq_timer := none, nextId := c1State.nextId + 2 * 2, pending := [],
      msg := "Your turn", glyphs := ⟨false, false, false⟩,
      trace := c1State.trace ++ pairsEv c1State.sequence ++ finishEv } := by
  have h := playback_presents_pairs c1State 2 rfl (by decide) (by decide)
    (by decide) rfl
  exact ⟨⟨rfl, rfl⟩, h.1, h.2.1 3 (by decide), h.2.2⟩

/-! ## C3: round completion, celebration, and next-round start -/

/-- find? skips a prefix on which the predicate is false. -/
theorem find?_append_none {l₁ l₂ : List Timer} {p : Timer → Bool}
    (h : ∀ t ∈ l₁, p t = false) : (l₁ ++ l₂).find? p = l₂.find? p := by
  induction l₁ with
  | nil => rfl
  | cons a l ih =>
    have ha := h a (by simp)
    simp only [List.cons_append, List.find?]
    rw [ha]
    exact ih (fun t ht => h t (by simp [ht]))

/-- start_round_transition: celebration vibes and banner, flash animation of
the milestone-dependent cycle count, and a single fresh completion timer of
150·cycles + 200 ms; stale flash/transition handles (strictly below the next
fresh id) cancel nothing that was just armed. -/
theorem start_round_transition_spec (s : GState)
    (hfl_lt : ∀ hh, s.flash_timer = some hh → hh < s.nextId)
    (htr_lt : ∀ hh, s.transition_timer = some hh → hh < s.nextId) :
    ∃ rest : List Timer, (∀ t ∈ rest, t ∈ s.pending) ∧
      start_round_transition s = { s with
        transitioning := true, showing := false,
        flash_phase := 0, flash_interval_ms := 140,
        nextId := s.nextId + 2,
        pending := rest ++
          [⟨s.nextId, 140, TimerCb.flashCb
              (if s.sequence.length = 4 ∨ s.sequence.length = 6 then 5
               else if s.sequence.length = 8 then 7 else 3)⟩,
           ⟨s.nextId + 1,
            150 * (if s.sequence.length = 4 ∨ s.sequence.length = 6 then 5
                   else if s.sequence.length = 8 then 7 else 3) + 200,
            TimerCb.transitionCb⟩],
        flash_timer := some s.nextId,
        transition_timer := some (s.nextId + 1),
        msg := "Length " ++ toString s.sequence.length,
        trace := s.trace ++ [Ev.vibe Vibe.double] ++
          (if s.sequence.length = 4 ∨ s.sequence.length = 6 then [Ev.vibe Vibe.short]
           else if s.sequence.length = 8 then [Ev.vibe Vibe.long] else []) ++
          [Ev.msg ("Length " ++ toString s.sequence.length)] } := by
  cases hfl : s.flash_timer with
  | none =>
    cases htl : s.transition_timer with
    | none =>
      refine ⟨s.pending, fun t ht => ht, ?_⟩
      unfold start_round_transition start_flash_animation app_timer_register
        app_timer_cancel show_message vibe
      by_cases h46 : s.sequence.length = 4 ∨ s.sequence.length = 6 <;>
        by_cases h8 : s.sequence.length = 8 <;>
          simp [hfl, htl, h46, h8, List.append_assoc]
    | some ht =>
      have hne : ht < s.nextId := htr_lt ht htl
      refine ⟨s.pending.filter (fun t => t.id != ht), fun t h => List.mem_of_mem_filter h, ?_⟩
      unfold start_round_transition start_flash_animation app_timer_register
        app_timer_cancel show_message vibe
      have hx : (s.nextId != ht) = true := by simp; omega
      by_cases h46 : s.sequence.length = 4 ∨ s.sequence.length = 6 <;>
        by_cases h8 : s.sequence.length = 8 <;>
          simp [hfl, htl, hx, h46, h8, List.append_assoc]
  | some hf =>
    have hnef : hf < s.nextId := hfl_lt hf hfl
    cases htl : s.transition_timer with
    | none =>
      refine ⟨s.pending.filter (fun t => t.id != hf), fun t h => List.mem_of_mem_filter h, ?_⟩
      unfold start_round_transition start_flash_animation app_timer_register
        app_timer_cancel show_message vibe
      by_cases h46 : s.sequence.length = 4 ∨ s.sequence.length = 6 <;>
        by_cases h8 : s.sequence.length = 8 <;>
          simp [hfl, htl, h46, h8, List.append_assoc]
    | some ht =>
      have hnet : ht < s.nextId := htr_lt ht htl
      refine ⟨(s.pending.filter (fun t => t.id != hf)).filter (fun t => t.id != ht),
        fun t h => List.mem_of_mem_filter (List.mem_of_mem_filter h), ?_⟩
      unfold start_round_transition start_flash_animation app_timer_register
        app_timer_cancel show_message vibe
      have hx : (s.nextId != ht) = true := by simp; omega
      by_cases h46 : s.sequence.length = 4 ∨ s.sequence.length = 6 <;>
        by_cases h8 : s.sequence.length = 8 <;>
          simp [hfl, htl, hx, h46, h8, List.append_assoc]

/-- Correct completion of a non-final round inside handle_input: press
feedback, short pulse, one appended random step, round number updated to the
new length, then the Round Transition Controller is invoked. -/
theorem handle_input_complete (s : GState) (b : Nat)
    (hsh : s.showing = false) (htr : s.transitioning = false)
    (hgo : s.game_over = false)
    (hidx : s.input_index + 1 = s.sequence.length)
    (hlen : s.sequence.length < 8)
    (hb : b = s.sequence.getD s.input_index 0) (hb3 : b < 3) :
    ∃ rest : List Timer, (∀ t ∈ rest, t ∈ s.pending) ∧
      handle_input s b = start_round_transition { s with
        sequence := s.sequence ++ [s.rng.headD 0 % 3], rng := s.rng.tail,
        input_index := s.input_index + 1, round := s.sequence.length + 1,
        info := "Round: " ++ toString (s.sequence.length + 1),
        nextId := s.nextId + 1,
        pending := rest ++ [⟨s.nextId, 150, TimerCb.clearGlyphCb b⟩],
        feedback_timer := some s.nextId,
        glyphs := setGlyph s.glyphs b true,
        trace := s.trace ++ [Ev.glyph b true, Ev.vibe Vibe.short] } := by
  have h1 : ¬ (s.sequence.length ≤ s.input_index) := by omega
  have h2 : ¬ (2 < b) := by omega
  have hb' : s.sequence[s.input_index]?.getD 0 = b := by
    have hx := hb.symm
    simpa [List.getD] using hx
  have hmax : ¬ (MAX_SEQUENCE ≤ s.sequence.length) := by
    simp only [MAX_SEQUENCE]
    omega
  have hadd : s.sequence.length < MAX_SEQUENCE := by
    simp only [MAX_SEQUENCE]
    omega
  cases hfb : s.feedback_timer with
  | none =>
    refine ⟨s.pending, fun t ht => ht, ?_⟩
    unfold handle_input add_random_step update_info_layer highlight_glyph vibe
      app_timer_register app_timer_cancel show_message
    simp [hsh, htr, hgo, h1, h2, hb', hidx, hfb, hmax, hadd, List.append_assoc]
  | some hf =>
    refine ⟨s.pending.filter (fun t => t.id != hf),
      fun t h => List.mem_of_mem_filter h, ?_⟩
    unfold handle_input add_random_step update_info_layer highlight_glyph vibe
      app_timer_register app_timer_cancel show_message
    simp [hsh, htr, hgo, h1, h2, hb', hidx, hfb, hmax, hadd, List.append_assoc]

/-- Firing the stored round-transition timer when it is the last pending
timer after a prefix of other handles runs the transition callback with that
timer removed. -/
theorem fire_transition_run (s : GState) (rest : List Timer) (h d : Nat)
    (hp : s.pending = rest ++ [⟨h, d, TimerCb.transitionCb⟩])
    (hskip : ∀ t ∈ rest, (t.id == h) = false)
    (hst : s.transition_timer = some h) :
    fire_transition s = round_transition_callback
      { s with pending := ((rest ++ [Timer.mk h d TimerCb.transitionCb]).filter (fun u => u.id != h)) } := by
  unfold fire_transition fire_timer run_cb
  simp only [hst, hp]
  rw [find?_append_none hskip]
  simp [List.find?]

/-- Firing the transition-completion timer armed by the controller: stops the
flash animation, resets the flash phase, and begins the next round (clearing
`transitioning`, re-entering the showing state). -/
theorem fire_transition_begins_round (s : GState) (rest : List Timer)
    (i d1 d2 c : Nat)
    (hfreshr : ∀ t ∈ rest, t.id < i)
    (hp : s.pending = rest ++ [⟨i, d1, TimerCb.flashCb c⟩,
                               ⟨i + 1, d2, TimerCb.transitionCb⟩])
    (hst : s.transition_timer = some (i + 1))
    (hfl : s.flash_timer = some i)
    (hlen : 1 ≤ s.sequence.length)
    (hg0 : s.sequence.getD 0 0 < 3) :
    (fire_transition s).transitioning = false ∧
    (fire_transition s).showing = true ∧
    (fire_transition s).game_over = false ∧
    (fire_transition s).flash_timer = none ∧
    (fire_transition s).flash_phase = 0 := by
  have hskipG : ∀ t ∈ rest, ((t.id == i + 1) : Bool) = false := by
    intro t ht
    have hx := hfreshr t ht
    simp
    omega
  have hne : ((i == i + 1) : Bool) = false := by simp
  unfold fire_transition fire_timer run_cb round_transition_callback
  simp only [hst, hp]
  rw [find?_append_none hskipG]
  simp only [List.find?, hne, beq_self_eq_true]
  simp only [hfl]
  rw [begin_round_eq]
  · simp
  · exact hlen
  · exact hg0

/-- C3: a correct completion at length L < 8 appends exactly one step, sets
round = L+1, fires the milestone haptic rule (double pulse always, extra short
at new length 4 or 6, extra long at 8), shows the "Length N" banner, starts a
flash animation of 5/7/3 cycles, and arms a single completion timer of
150·cycles + 200 ms whose firing stops the flash, resets the flash phase, and
calls begin_round, clearing `transitioning` and resuming the show cycle. -/
theorem round_complete_celebration (s : GState) (b : Nat)
    (hsh : s.showing = false) (htr : s.transitioning = false)
    (hgo : s.game_over = false)
    (hidx : s.input_index + 1 = s.sequence.length)
    (hlen : s.sequence.length < 8)
    (hb : b = s.sequence.getD s.input_index 0) (hb3 : b < 3)
    (hv : ∀ x ∈ s.sequence, x < 3)
    (hfresh : ∀ t ∈ s.pending, t.id < s.nextId)
    (hnotr : ∀ t ∈ s.pending, t.cb ≠ TimerCb.transitionCb)
    (hfl_lt : ∀ hh, s.flash_timer = some hh → hh < s.nextId)
    (htr_lt : ∀ hh, s.transition_timer = some hh → hh < s.nextId) :
    (handle_input s b).sequence = s.sequence ++ [s.rng.headD 0 % 3] ∧
    (handle_input s b).sequence.length = s.sequence.length + 1 ∧
    (handle_input s b).round = s.sequence.length + 1 ∧
    (handle_input s b).transitioning = true ∧
    (handle_input s b).showing = false ∧
    (handle_input s b).flash_phase = 0 ∧
    (handle_input s b).msg = "Length " ++ toString (s.sequence.length + 1) ∧
    (handle_input s b).trace = s.trace ++
      [Ev.glyph b true, Ev.vibe Vibe.short, Ev.vibe Vibe.double] ++
      (if s.sequence.length + 1 = 4 ∨ s.sequence.length + 1 = 6 then [Ev.vibe Vibe.short]
       else if s.sequence.length + 1 = 8 then [Ev.vibe Vibe.long] else []) ++
      [Ev.msg ("Length " ++ toString (s.sequence.length + 1))] ∧
    (handle_input s b).flash_timer = some (s.nextId + 1) ∧
    Timer.mk (s.nextId + 1) 140 (TimerCb.flashCb
      (if s.sequence.length + 1 = 4 ∨ s.sequence.length + 1 = 6 then 5
       else if s.sequence.length + 1 = 8 then 7 else 3)) ∈ (handle_input s b).pending ∧
    (handle_input s b).transition_timer = some (s.nextId + 2) ∧
    Timer.mk (s.nextId + 2)
      (150 * (if s.sequence.length + 1 = 4 ∨ s.sequence.length + 1 = 6 then 5
              else if s.sequence.length + 1 = 8 then 7 else 3) + 200)
      TimerCb.transitionCb ∈ (handle_input s b).pending ∧
    (∀ t ∈ (handle_input s b).pending, t.cb = TimerCb.transitionCb →
      t = Timer.mk (s.nextId + 2)
        (150 * (if s.sequence.length + 1 = 4 ∨ s.sequence.length + 1 = 6 then 5
                else if s.sequence.length + 1 = 8 then 7 else 3) + 200)
        TimerCb.transitionCb) ∧
    ((fire_transition (handle_input s b)).transitioning = false ∧
     (fire_transition (handle_input s b)).showing = true ∧
     (fire_transition (handle_input s b)).game_over = false ∧
     (fire_transition (handle_input s b)).flash_timer = none ∧
     (fire_transition (handle_input s b)).flash_phase = 0) := by
  obtain ⟨rest1, hmem1, hkey⟩ := handle_input_complete s b hsh htr hgo hidx hlen hb hb3
  obtain ⟨rest2, hmem2, hspec⟩ := start_round_transition_spec
    { s with
      sequence := s.sequence ++ [s.rng.headD 0 % 3], rng := s.rng.tail,
      input_index := s.input_index + 1, round := s.sequence.length + 1,
      info := "Round: " ++ toString (s.sequence.length + 1),
      nextId := s.nextId + 1,
      pending := rest1 ++ [⟨s.nextId, 150, TimerCb.clearGlyphCb b⟩],
      feedback_timer := some s.nextId,
      glyphs := setGlyph s.glyphs b true,
      trace := s.trace ++ [Ev.glyph b true, Ev.vibe Vibe.short] }
    (fun hh hfl => Nat.lt_succ_of_lt (hfl_lt hh hfl))
    (fun hh htl => Nat.lt_succ_of_lt (htr_lt hh htl))
  simp only [List.length_append, List.length_cons, List.length_nil,
    Nat.zero_add] at hspec
  have hmemZ : ∀ t ∈ rest2, t.id < s.nextId + 1 ∧ t.cb ≠ TimerCb.transitionCb := by
    intro t ht
    have h0 := hmem2 t ht
    simp only [List.mem_append, List.mem_singleton] at h0
    rcases h0 with h1 | h1
    · have hx := hfresh t (hmem1 t h1)
      exact ⟨by omega, hnotr t (hmem1 t h1)⟩
    · subst h1
      exact ⟨Nat.lt_succ_self _, by simp⟩
  have hvx : ∀ y ∈ s.sequence ++ [s.rng.headD 0 % 3], y < 3 := by
    intro y hy
    rcases List.mem_append.mp hy with h1 | h1
    · exact hv y h1
    · simp only [List.mem_singleton] at h1
      subst h1
      omega
  have hg0' : (s.sequence ++ [s.rng.headD 0 % 3]).getD 0 0 < 3 := by
    refine getD_lt_three hvx ?_
    simp
  rw [hkey, hspec]
  refine ⟨by simp, by simp, by simp, by simp, by simp, by simp, by simp,
    by simp [List.append_assoc], by simp, by simp, by simp, by simp, ?_, ?_⟩
  · intro t ht hcb
    simp only [List.mem_append, List.mem_cons, List.mem_singleton,
      List.not_mem_nil, or_false] at ht
    rcases ht with h1 | h1 | h1
    · exact absurd hcb (hmemZ t h1).2
    · subst h1
      simp at hcb
    · subst h1
      simp
  · exact fire_transition_begins_round _ rest2 (s.nextId + 1) 140
      (150 * (if s.sequence.length + 1 = 4 ∨ s.sequence.length + 1 = 6 then 5
              else if s.sequence.length + 1 = 8 then 7 else 3) + 200)
      (if s.sequence.length + 1 = 4 ∨ s.sequence.length + 1 = 6 then 5
       else if s.sequence.length + 1 = 8 then 7 else 3)
      (fun t ht => (hmemZ t ht).1) (by rfl) (by rfl) (by rfl)
      (by simp) (by exact hg0')

/-- Witness for C3: completing the length-1 round in `wState` with the
correct press SELECT (1). -/
theorem round_complete_celebration_witness :
    (wState.input_index + 1 = wState.sequence.length ∧
     wState.sequence.length < 8 ∧
     (1 : Nat) = wState.sequence.getD wState.input_index 0) ∧
    (handle_input wState 1).sequence.length = wState.sequence.length + 1 ∧
    (handle_input wState 1).round = wState.sequence.length + 1 ∧
    (handle_input wState 1).transitioning = true ∧
    Timer.mk (wState.nextId + 2)
      (150 * (if wState.sequence.length + 1 = 4 ∨ wState.sequence.length + 1 = 6 then 5
              else if wState.sequence.length + 1 = 8 then 7 else 3) + 200)
      TimerCb.transitionCb ∈ (handle_input wState 1).pending ∧
    (fire_transition (handle_input wState 1)).transitioning = false ∧
    (fire_transition (handle_input wState 1)).showing = true := by
  have h := round_complete_celebration wState 1 rfl rfl rfl (by decide) (by decide)
    (by decide) (by decide) (by decide) (by decide) (by decide)
    (fun hh hx => by simp [wState, init_state] at hx)
    (fun hh hx => by simp [wState, init_state] at hx)
  obtain ⟨c1, c2, c3, c4, c5, c6, c7, c8, c9, c10, c11, c12, c13, c14⟩ := h
  exact ⟨⟨by decide, by decide, by decide⟩, c2, c3, c4, c12, c14.1, c14.2.1⟩

/-! ## Reachability invariant (C8, C9, C10) -/

/-- Per-pending-timer well-formedness: the handle is fresh-bounded, and each
tracked callback's timer is the one its handle slot stores, with the flag
state that allows it to be armed. -/
def timerOK (s : GState) (t : Timer) : Prop :=
  t.id < s.nextId ∧
  (t.cb = TimerCb.seqCb → s.seq_timer = some t.id ∧ s.showing = true) ∧
  (∀ i, t.cb = TimerCb.clearGlyphCb i → s.feedback_timer = some t.id) ∧
  (t.cb = TimerCb.transitionCb → s.transition_timer = some t.id ∧ s.transitioning = true) ∧
  (∀ c, t.cb = TimerCb.flashCb c → s.flash_timer = some t.id)

/-- The state invariant maintained by every reachable state of the program. -/
structure GInv (s : GState) : Prop where
  timers : ∀ t ∈ s.pending, timerOK s t
  distinct : s.pending.Pairwise (fun a b => a.id ≠ b.id)
  goNotShow : s.game_over = true → s.showing = false
  transNotGo : s.transitioning = true → s.game_over = false
  showNotTrans : s.showing = true → s.transitioning = false
  inputLe : s.input_index ≤ s.sequence.length
  showLe : s.showing = true → s.show_index ≤ s.sequence.length
  lenLe : s.sequence.length ≤ 8
  seqVals : ∀ x ∈ s.sequence, x < 3
  slotSq : ∀ hh, s.seq_timer = some hh → hh < s.nextId
  slotFb : ∀ hh, s.feedback_timer = some hh → hh < s.nextId
  slotTr : ∀ hh, s.transition_timer = some hh → hh < s.nextId
  slotFl : ∀ hh, s.flash_timer = some hh → hh < s.nextId

/-- begin_round on an empty sequence immediately finishes showing. -/
theorem begin_round_len0 (s : GState) (h0 : s.sequence.length = 0) :
    begin_round s = { s with
      input_index := 0, show_index := 0, show_phase := 0,
      showing := false, game_over := false, transitioning := false,
      round := s.sequence.length,
      show_ms_current := calc_show_ms s.sequence.length,
      info := "Round: " ++ toString s.sequence.length,
      seq_timer := none,
      msg := "Your turn", glyphs := ⟨false, false, false⟩,
      trace := s.trace ++ finishEv } := by
  unfold begin_round update_info_layer start_show_sequence sequence_timer_callback
    show_message highlight_glyph
  simp [h0, finishEv, setGlyph]

/-- begin_round preserves the invariant, provided no sequence or transition
timer is pending when it is invoked. -/
theorem inv_begin_round (s : GState)
    (timers : ∀ t ∈ s.pending, timerOK s t)
    (distinct : s.pending.Pairwise (fun a b => a.id ≠ b.id))
    (noSeq : ∀ t ∈ s.pending, t.cb ≠ TimerCb.seqCb)
    (noTrans : ∀ t ∈ s.pending, t.cb ≠ TimerCb.transitionCb)
    (lenLe : s.sequence.length ≤ 8)
    (seqVals : ∀ x ∈ s.sequence, x < 3)
    (slotFb : ∀ hh, s.feedback_timer = some hh → hh < s.nextId)
    (slotTr : ∀ hh, s.transition_timer = some hh → hh < s.nextId)
    (slotFl : ∀ hh, s.flash_timer = some hh → hh < s.nextId) :
    GInv (begin_round s) := by
  rcases Nat.eq_zero_or_pos s.sequence.length with h0 | hpos
  · rw [begin_round_len0 s h0]
    refine ⟨?_, distinct, fun _ => rfl, fun _ => rfl, ?_, Nat.zero_le _,
      fun _ => Nat.zero_le _, lenLe, seqVals, ?_, slotFb, slotTr, slotFl⟩
    · intro t ht
      obtain ⟨h1, _, h3, _, h5⟩ := timers t ht
      exact ⟨h1, fun hc => absurd hc (noSeq t ht), h3,
        fun hc => absurd hc (noTrans t ht), h5⟩
    · intro h
      simp at h
    · intro hh h
      exact Option.noConfusion h
  · have hg0 : s.sequence.getD 0 0 < 3 := getD_lt_three seqVals hpos
    rw [begin_round_eq s hpos hg0]
    refine ⟨?_, ?_, ?_, fun _ => rfl, fun _ => rfl, Nat.zero_le _,
      fun _ => Nat.zero_le _, lenLe, seqVals, ?_, ?_, ?_, ?_⟩
    · intro t ht
      rcases List.mem_append.mp ht with h1 | h1
      · obtain ⟨ha, _, hc, _, he⟩ := timers t h1
        exact ⟨Nat.lt_succ_of_lt ha, fun hx => absurd hx (noSeq t h1), hc,
          fun hx => absurd hx (noTrans t h1), he⟩
      · simp only [List.mem_singleton] at h1
        subst h1
        exact ⟨Nat.lt_succ_self _, fun _ => ⟨rfl, rfl⟩,
          fun i hx => absurd hx (by simp), fun hx => absurd hx (by simp),
          fun c hx => absurd hx (by simp)⟩
    · refine List.pairwise_append.mpr ⟨distinct, by simp, ?_⟩
      intro a ha b hb
      simp only [List.mem_singleton] at hb
      subst hb
      exact Nat.ne_of_lt (timers a ha).1
    · intro h
      simp at h
    · intro hh h
      simp at h
      show hh < s.nextId + 1
      omega
    · intro hh h
      exact Nat.lt_succ_of_lt (slotFb hh h)
    · intro hh h
      exact Nat.lt_succ_of_lt (slotTr hh h)
    · intro hh h
      exact Nat.lt_succ_of_lt (slotFl hh h)

/-- The cancel-if-stored-handle pattern (`if (timer) app_timer_cancel(timer)`)
applied to the pending list. -/
def cancelSlot (p : List Timer) : Option Nat → List Timer
  | some h => p.filter (fun t => t.id != h)
  | none => p

/-- Membership survives cancelSlot. -/
theorem mem_of_mem_cancelSlot {p : List Timer} {o : Option Nat} {t : Timer}
    (ht : t ∈ cancelSlot p o) : t ∈ p := by
  cases o with
  | none => exact ht
  | some h => exact List.mem_of_mem_filter ht

/-- Pairwise distinct ids survive cancelSlot. -/
theorem pairwise_cancelSlot {p : List Timer} {o : Option Nat}
    (hp : p.Pairwise (fun a b => a.id ≠ b.id)) :
    (cancelSlot p o).Pairwise (fun a b => a.id ≠ b.id) := by
  cases o with
  | none => exact hp
  | some h => exact hp.sublist (List.filter_sublist p)

/-- After cancelling a stored handle, no surviving timer carries it. -/
theorem cancelSlot_ne {p : List Timer} {h : Nat} {t : Timer}
    (ht : t ∈ cancelSlot p (some h)) : t.id ≠ h := by
  have hx := (List.mem_filter.mp ht).2
  simpa using hx

/-- Appending one fresh timer keeps ids pairwise distinct. -/
theorem pairwise_snoc_fresh {p : List Timer} {x : Timer}
    (hp : p.Pairwise (fun a b => a.id ≠ b.id))
    (hx : ∀ t ∈ p, t.id < x.id) :
    (p ++ [x]).Pairwise (fun a b => a.id ≠ b.id) := by
  refine List.pairwise_append.mpr ⟨hp, by simp, ?_⟩
  intro a ha b hb
  simp only [List.mem_singleton] at hb
  subst hb
  exact Nat.ne_of_lt (hx a ha)

/-- handle_input on a wrong press: the explicit end state (C2 path). -/
theorem handle_input_wrong_eq (s : GState) (b : Nat)
    (hsh : s.showing = false) (htr : s.transitioning = false)
    (hgo : s.game_over = false) (hidx : s.input_index < s.sequence.length)
    (hb3 : b < 3) (hw : b ≠ s.sequence.getD s.input_index 0) :
    handle_input s b = { s with
      game_over := true, showing := false,
      seq_timer := none, feedback_timer := some s.nextId,
      nextId := s.nextId + 1,
      pending := cancelSlot (cancelSlot s.pending s.feedback_timer ++
        [Timer.mk s.nextId 150 (TimerCb.clearGlyphCb b)]) s.seq_timer,
      msg := "Game Over",
      info := "Press Select to Restart\nRound: " ++ toString s.round,
      glyphs := setGlyph s.glyphs b true,
      trace := s.trace ++ [Ev.glyph b true, Ev.vibe Vibe.long, Ev.msg "Game Over"] } := by
  have h1 : ¬ (s.sequence.length ≤ s.input_index) := by omega
  have h2 : ¬ (2 < b) := by omega
  have h4 : ¬ (s.sequence.length = 0) := by omega
  have hw' : ¬ (b = s.sequence[s.input_index]?.getD 0) := by
    simpa [List.getD] using hw
  unfold handle_input end_game update_info_layer show_message highlight_glyph vibe
    app_timer_register app_timer_cancel cancelSlot
  cases hfb : s.feedback_timer <;> cases hst : s.seq_timer <;>
    simp [hsh, htr, hgo, h1, h2, h4, hw', hfb, hst, List.append_assoc]

/-- handle_input on a correct, non-completing press: the explicit end state. -/
theorem handle_input_good_eq (s : GState) (b : Nat)
    (hsh : s.showing = false) (htr : s.transitioning = false)
    (hgo : s.game_over = false) (hidx : s.input_index < s.sequence.length)
    (hb3 : b < 3) (hb : b = s.sequence.getD s.input_index 0)
    (hnc : s.input_index + 1 ≠ s.sequence.length) :
    handle_input s b = { s with
      input_index := s.input_index + 1,
      feedback_timer := some s.nextId,
      nextId := s.nextId + 2,
      pending := cancelSlot s.pending s.feedback_timer ++
        [Timer.mk s.nextId 150 (TimerCb.clearGlyphCb b),
         Timer.mk (s.nextId + 1) 200 TimerCb.clearFeedbackCb],
      msg := "Good",
      glyphs := setGlyph s.glyphs b true,
      trace := s.trace ++ [Ev.glyph b true, Ev.vibe Vibe.short, Ev.msg "Good"] } := by
  have h1 : ¬ (s.sequence.length ≤ s.input_index) := by omega
  have h2 : ¬ (2 < b) := by omega
  have hb' : s.sequence[s.input_index]?.getD 0 = b := by
    have hx := hb.symm
    simpa [List.getD] using hx
  unfold handle_input update_info_layer show_message highlight_glyph vibe
    app_timer_register app_timer_cancel cancelSlot
  cases hfb : s.feedback_timer <;>
    simp [hsh, htr, hgo, h1, h2, hb', hnc, hfb, List.append_assoc]

/-- handle_input winning at the maximum length: the explicit end state. -/
theorem handle_input_win_eq (s : GState) (b : Nat)
    (hsh : s.showing = false) (htr : s.transitioning = false)
    (hgo : s.game_over = false)
    (hidx : s.input_index + 1 = s.sequence.length)
    (hlen : s.sequence.length = 8)
    (hb3 : b < 3) (hb : b = s.sequence.getD s.input_index 0) :
    handle_input s b = { s with
      input_index := s.input_index + 1,
      game_over := true,
      feedback_timer := some s.nextId,
      nextId := s.nextId + 1,
      pending := cancelSlot s.pending s.feedback_timer ++
        [Timer.mk s.nextId 150 (TimerCb.clearGlyphCb b)],
      msg := "You win!",
      info := "Press Select to Restart\nRound: " ++ toString s.round,
      glyphs := setGlyph s.glyphs b true,
      trace := s.trace ++ [Ev.glyph b true, Ev.vibe Vibe.short, Ev.msg "You win!"] } := by
  have h1 : ¬ (s.sequence.length ≤ s.input_index) := by omega
  have h2 : ¬ (2 < b) := by omega
  have h4 : ¬ (s.sequence.length = 0) := by omega
  have hb' : s.sequence[s.input_index]?.getD 0 = b := by
    have hx := hb.symm
    simpa [List.getD] using hx
  have hmax : MAX_SEQUENCE ≤ s.sequence.length := by
    rw [hlen]
    decide
  have h4' : ¬ (s.sequence = []) := by
    intro hx
    rw [hx] at h4
    exact h4 rfl
  unfold handle_input update_info_layer show_message highlight_glyph vibe
    app_timer_register app_timer_cancel cancelSlot
  cases hfb : s.feedback_timer <;>
    simp [hsh, htr, hgo, h1, h2, hb', hidx, hmax, hfb, h4', List.append_assoc]

/-- start_round_transition: fully explicit end state, with the cancel-stored-
handle steps expressed by `cancelSlot`. -/
theorem start_round_transition_eq (s : GState) :
    start_round_transition s = { s with
      transitioning := true, showing := false,
      flash_phase := 0, flash_interval_ms := 140,
      nextId := s.nextId + 2,
      pending := cancelSlot (cancelSlot s.pending s.flash_timer ++
          [Timer.mk s.nextId 140 (TimerCb.flashCb
            (if s.sequence.length = 4 ∨ s.sequence.length = 6 then 5
             else if s.sequence.length = 8 then 7 else 3))]) s.transition_timer ++
        [Timer.mk (s.nextId + 1)
          (150 * (if s.sequence.length = 4 ∨ s.sequence.length = 6 then 5
                  else if s.sequence.length = 8 then 7 else 3) + 200)
          TimerCb.transitionCb],
      flash_timer := some s.nextId,
      transition_timer := some (s.nextId + 1),
      msg := "Length " ++ toString s.sequence.length,
      trace := s.trace ++ [Ev.vibe Vibe.double] ++
        (if s.sequence.length = 4 ∨ s.sequence.length = 6 then [Ev.vibe Vibe.short]
         else if s.sequence.length = 8 then [Ev.vibe Vibe.long] else []) ++
        [Ev.msg ("Length " ++ toString s.sequence.length)] } := by
  unfold start_round_transition start_flash_animation app_timer_register
    app_timer_cancel show_message vibe cancelSlot
  cases hfl : s.flash_timer <;> cases htl : s.transition_timer <;>
    (by_cases h46 : s.sequence.length = 4 ∨ s.sequence.length = 6 <;>
      by_cases h8 : s.sequence.length = 8 <;>
        simp [hfl, htl, h46, h8, List.append_assoc])

/-- handle_input completing a non-final round: reduction to the transition
controller on the explicit intermediate state. -/
theorem handle_input_trans_eq (s : GState) (b : Nat)
    (hsh : s.showing = false) (htr : s.transitioning = false)
    (hgo : s.game_over = false)
    (hidx : s.input_index + 1 = s.sequence.length)
    (hlen : s.sequence.length < 8)
    (hb3 : b < 3) (hb : b = s.sequence.getD s.input_index 0) :
    handle_input s b = start_round_transition { s with
      sequence := s.sequence ++ [s.rng.headD 0 % 3], rng := s.rng.tail,
      input_index := s.input_index + 1, round := s.sequence.length + 1,
      info := "Round: " ++ toString (s.sequence.length + 1),
      nextId := s.nextId + 1,
      pending := cancelSlot s.pending s.feedback_timer ++
        [Timer.mk s.nextId 150 (TimerCb.clearGlyphCb b)],
      feedback_timer := some s.nextId,
      glyphs := setGlyph s.glyphs b true,
      trace := s.trace ++ [Ev.glyph b true, Ev.vibe Vibe.short] } := by
  have h1 : ¬ (s.sequence.length ≤ s.input_index) := by omega
  have h2 : ¬ (2 < b) := by omega
  have hb' : s.sequence[s.input_index]?.getD 0 = b := by
    have hx := hb.symm
    simpa [List.getD] using hx
  have hmax : ¬ (MAX_SEQUENCE ≤ s.sequence.length) := by
    simp only [MAX_SEQUENCE]
    omega
  have hadd : s.sequence.length < MAX_SEQUENCE := by
    simp only [MAX_SEQUENCE]
    omega
  unfold handle_input add_random_step update_info_layer highlight_glyph vibe
    app_timer_register app_timer_cancel show_message cancelSlot
  cases hfb : s.feedback_timer <;>
    simp [hsh, htr, hgo, h1, h2, hb', hidx, hfb, hmax, hadd, List.append_assoc]

/-- handle_input preserves the invariant (for the three real buttons). -/
theorem inv_handle_input (s : GState) (b : Nat) (hb3 : b < 3) (hInv : GInv s) :
    GInv (handle_input s b) := by
  by_cases hsh : s.showing = true
  · rw [handle_input_ignored s b (Or.inl hsh)]
    exact hInv
  by_cases htr : s.transitioning = true
  · rw [handle_input_ignored s b (Or.inr (Or.inl htr))]
    exact hInv
  by_cases hgo : s.game_over = true
  · rw [handle_input_ignored s b (Or.inr (Or.inr hgo))]
    exact hInv
  have hsh' : s.showing = false := by simpa using hsh
  have htr' : s.transitioning = false := by simpa using htr
  have hgo' : s.game_over = false := by simpa using hgo
  have noSeq : ∀ t ∈ s.pending, t.cb ≠ TimerCb.seqCb := by
    intro t ht hc
    have hx := ((hInv.timers t ht).2.1 hc).2
    rw [hsh'] at hx
    exact Bool.false_ne_true hx
  have noTrans : ∀ t ∈ s.pending, t.cb ≠ TimerCb.transitionCb := by
    intro t ht hc
    have hx := ((hInv.timers t ht).2.2.2.1 hc).2
    rw [htr'] at hx
    exact Bool.false_ne_true hx
  have noGlyphRest : ∀ t ∈ cancelSlot s.pending s.feedback_timer,
      ∀ i, t.cb ≠ TimerCb.clearGlyphCb i := by
    intro t ht i hc
    have hmem := mem_of_mem_cancelSlot ht
    have hsl := (hInv.timers t hmem).2.2.1 i hc
    cases hfb : s.feedback_timer with
    | none =>
      rw [hfb] at hsl
      exact Option.noConfusion hsl
    | some h =>
      rw [hfb] at hsl ht
      exact (cancelSlot_ne ht) (Option.some.inj hsl).symm
  have restLt : ∀ t ∈ cancelSlot s.pending s.feedback_timer, t.id < s.nextId :=
    fun t ht => (hInv.timers t (mem_of_mem_cancelSlot ht)).1
  by_cases hguard : s.sequence.length ≤ s.input_index
  · have hid : handle_input s b = s := by
      unfold handle_input
      simp [hsh', htr', hgo', hguard]
    rw [hid]
    exact hInv
  have hidx : s.input_index < s.sequence.length := by omega
  by_cases hw : b = s.sequence.getD s.input_index 0
  · by_cases hcomp : s.input_index + 1 = s.sequence.length
    · by_cases hmax : s.sequence.length = 8
      · -- win at maximum length
        rw [handle_input_win_eq s b hsh' htr' hgo' hcomp hmax hb3 hw]
        refine ⟨?_, ?_, fun _ => hsh', ?_, fun _ => htr', ?_,
          fun h => hInv.showLe h, hInv.lenLe, hInv.seqVals, ?_, ?_, ?_, ?_⟩
        · intro t ht
          rcases List.mem_append.mp ht with h1 | h1
          · have hmem := mem_of_mem_cancelSlot h1
            refine ⟨Nat.lt_succ_of_lt (hInv.timers t hmem).1,
              fun hc => absurd hc (noSeq t hmem),
              fun i hc => absurd hc (noGlyphRest t h1 i),
              fun hc => absurd hc (noTrans t hmem),
              (hInv.timers t hmem).2.2.2.2⟩
          · simp only [List.mem_singleton] at h1
            subst h1
            exact ⟨Nat.lt_succ_self _, fun hc => absurd hc (by simp),
              fun i hc => by simp at hc; subst hc; rfl,
              fun hc => absurd hc (by simp), fun c hc => absurd hc (by simp)⟩
        · exact pairwise_snoc_fresh (pairwise_cancelSlot hInv.distinct) restLt
        · intro h
          rw [htr'] at h
          exact absurd h (by simp)
        · show s.input_index + 1 ≤ s.sequence.length
          omega
        · intro hh h
          exact Nat.lt_succ_of_lt (hInv.slotSq hh h)
        · intro hh h
          simp at h
          show hh < s.nextId + 1
          omega
        · intro hh h
          exact Nat.lt_succ_of_lt (hInv.slotTr hh h)
        · intro hh h
          exact Nat.lt_succ_of_lt (hInv.slotFl hh h)
      · -- completed a non-final round: transition
        have hlen8 : s.sequence.length < 8 := by
          have hx := hInv.lenLe
          omega
        rw [handle_input_trans_eq s b hsh' htr' hgo' hcomp hlen8 hb3 hw,
          start_round_transition_eq]
        have hZlt : ∀ t ∈ cancelSlot s.pending s.feedback_timer ++
            [Timer.mk s.nextId 150 (TimerCb.clearGlyphCb b)], t.id < s.nextId + 1 := by
          intro t ht
          rcases List.mem_append.mp ht with h1 | h1
          · exact Nat.lt_succ_of_lt (restLt t h1)
          · simp only [List.mem_singleton] at h1
            subst h1
            exact Nat.lt_succ_self _
        have noFlashZ : ∀ t ∈ cancelSlot (cancelSlot s.pending s.feedback_timer ++
            [Timer.mk s.nextId 150 (TimerCb.clearGlyphCb b)]) s.flash_timer,
            ∀ c, t.cb ≠ TimerCb.flashCb c := by
          intro t ht c hc
          have hmem := mem_of_mem_cancelSlot ht
          rcases List.mem_append.mp hmem with h1 | h1
          · have hm2 := mem_of_mem_cancelSlot h1
            have hsl := (hInv.timers t hm2).2.2.2.2 c hc
            cases hfl : s.flash_timer with
            | none =>
              rw [hfl] at hsl
              exact Option.noConfusion hsl
            | some h =>
              rw [hfl] at hsl ht
              exact (cancelSlot_ne ht) (Option.some.inj hsl).symm
          · simp only [List.mem_singleton] at h1
            subst h1
            simp at hc
        refine ⟨?_, ?_, fun _ => rfl, fun _ => hgo', ?_, ?_, ?_, ?_, ?_,
          ?_, ?_, ?_, ?_⟩
        · intro t ht
          rcases List.mem_append.mp ht with h1 | h1
          · have hm1 := mem_of_mem_cancelSlot h1
            rcases List.mem_append.mp hm1 with h2 | h2
            · -- survived both flash and transition cancels: from the old pool
              have hm2 := mem_of_mem_cancelSlot h2
              rcases List.mem_append.mp hm2 with h3 | h3
              · have hmem := mem_of_mem_cancelSlot h3
                refine ⟨?_, fun hc => absurd hc (noSeq t hmem),
                  fun i hc => absurd hc (noGlyphRest t h3 i),
                  fun hc => absurd hc (noTrans t hmem),
                  fun c hc => absurd hc (noFlashZ t h2 c)⟩
                show t.id < s.nextId + 1 + 2
                have hx := (hInv.timers t hmem).1
                omega
              · simp only [List.mem_singleton] at h3
                subst h3
                refine ⟨?_, fun hc => absurd hc (by simp),
                  fun i hc => by simp at hc; subst hc; rfl,
                  fun hc => absurd hc (by simp), fun c hc => absurd hc (by simp)⟩
                show s.nextId < s.nextId + 1 + 2
                omega
            · simp only [List.mem_singleton] at h2
              subst h2
              refine ⟨?_, fun hc => absurd hc (by simp),
                fun i hc => absurd hc (by simp),
                fun hc => absurd hc (by simp),
                fun c hc => rfl⟩
              show s.nextId + 1 < s.nextId + 1 + 2
              omega
          · simp only [List.mem_singleton] at h1
            subst h1
            refine ⟨?_, fun hc => absurd hc (by simp),
              fun i hc => absurd hc (by simp),
              fun hc => ⟨rfl, rfl⟩,
              fun c hc => absurd hc (by simp)⟩
            show s.nextId + 1 + 1 < s.nextId + 1 + 2
            omega
        · have hZpair : (cancelSlot s.pending s.feedback_timer ++
              [Timer.mk s.nextId 150 (TimerCb.clearGlyphCb b)]).Pairwise
              (fun a b => a.id ≠ b.id) :=
            pairwise_snoc_fresh (pairwise_cancelSlot hInv.distinct) restLt
          refine pairwise_snoc_fresh (pairwise_cancelSlot
            (pairwise_snoc_fresh (pairwise_cancelSlot hZpair)
              (fun t ht => hZlt t (mem_of_mem_cancelSlot ht)))) ?_
          intro t ht
          have hm1 := mem_of_mem_cancelSlot ht
          rcases List.mem_append.mp hm1 with h2 | h2
          · have hx := hZlt t (mem_of_mem_cancelSlot h2)
            show t.id < s.nextId + 1 + 1
            omega
          · simp only [List.mem_singleton] at h2
            subst h2
            show s.nextId + 1 < s.nextId + 1 + 1
            omega
        · intro h
          exact absurd h (by simp)
        · show s.input_index + 1 ≤ (s.sequence ++ [s.rng.headD 0 % 3]).length
          simp
          omega
        · intro h
          exact absurd h (by simp)
        · show (s.sequence ++ [s.rng.headD 0 % 3]).length ≤ 8
          simp
          omega
        · intro x hx
          rcases List.mem_append.mp hx with h1 | h1
          · exact hInv.seqVals x h1
          · simp only [List.mem_singleton] at h1
            subst h1
            omega
        · intro hh h
          have hx := hInv.slotSq hh h
          show hh < s.nextId + 1 + 2
          omega
        · intro hh h
          simp at h
          show hh < s.nextId + 1 + 2
          omega
        · intro hh h
          simp at h
          show hh < s.nextId + 1 + 2
          omega
        · intro hh h
          simp at h
          show hh < s.nextId + 1 + 2
          omega
    · -- correct but round not finished: "Good"
      rw [handle_input_good_eq s b hsh' htr' hgo' hidx hb3 hw hcomp]
      refine ⟨?_, ?_, fun _ => hsh', fun _ => hgo', fun _ => htr', ?_,
        fun h => hInv.showLe h, hInv.lenLe, hInv.seqVals, ?_, ?_, ?_, ?_⟩
      · intro t ht
        rcases List.mem_append.mp ht with h1 | h1
        · have hmem := mem_of_mem_cancelSlot h1
          refine ⟨?_, fun hc => absurd hc (noSeq t hmem),
            fun i hc => absurd hc (noGlyphRest t h1 i),
            fun hc => absurd hc (noTrans t hmem),
            (hInv.timers t hmem).2.2.2.2⟩
          show t.id < s.nextId + 2
          have hx := (hInv.timers t hmem).1
          omega
        · simp only [List.mem_cons, List.mem_singleton, List.not_mem_nil,
            or_false] at h1
          rcases h1 with h1 | h1
          · subst h1
            refine ⟨?_, fun hc => absurd hc (by simp),
              fun i hc => by simp at hc; subst hc; rfl,
              fun hc => absurd hc (by simp), fun c hc => absurd hc (by simp)⟩
            show s.nextId < s.nextId + 2
            omega
          · subst h1
            refine ⟨?_, fun hc => absurd hc (by simp),
              fun i hc => absurd hc (by simp),
              fun hc => absurd hc (by simp), fun c hc => absurd hc (by simp)⟩
            show s.nextId + 1 < s.nextId + 2
            omega
      · refine List.pairwise_append.mpr ⟨pairwise_cancelSlot hInv.distinct, ?_, ?_⟩
        · refine List.Pairwise.cons ?_ (by simp)
          intro u hu
          simp only [List.mem_singleton] at hu
          subst hu
          show s.nextId ≠ s.nextId + 1
          omega
        · intro a ha u hu
          have hx := restLt a ha
          simp only [List.mem_cons, List.mem_singleton, List.not_mem_nil,
            or_false] at hu
          rcases hu with hu | hu <;> subst hu
          · exact Nat.ne_of_lt hx
          · show a.id ≠ s.nextId + 1
            omega
      · show s.input_index + 1 ≤ s.sequence.length
        omega
      · intro hh h
        have hx := hInv.slotSq hh h
        show hh < s.nextId + 2
        omega
      · intro hh h
        simp at h
        show hh < s.nextId + 2
        omega
      · intro hh h
        have hx := hInv.slotTr hh h
        show hh < s.nextId + 2
        omega
      · intro hh h
        have hx := hInv.slotFl hh h
        show hh < s.nextId + 2
        omega
  · -- wrong press: game over
    rw [handle_input_wrong_eq s b hsh' htr' hgo' hidx hb3 hw]
    refine ⟨?_, ?_, fun _ => rfl, ?_, fun _ => htr', hInv.inputLe,
      fun h => absurd h (by simp), hInv.lenLe, hInv.seqVals, ?_, ?_, ?_, ?_⟩
    · intro t ht
      have ht1 := mem_of_mem_cancelSlot ht
      rcases List.mem_append.mp ht1 with h1 | h1
      · have hmem := mem_of_mem_cancelSlot h1
        refine ⟨Nat.lt_succ_of_lt (hInv.timers t hmem).1,
          fun hc => absurd hc (noSeq t hmem),
          fun i hc => absurd hc (noGlyphRest t h1 i),
          fun hc => absurd hc (noTrans t hmem),
          (hInv.timers t hmem).2.2.2.2⟩
      · simp only [List.mem_singleton] at h1
        subst h1
        exact ⟨Nat.lt_succ_self _, fun hc => absurd hc (by simp),
          fun i hc => by simp at hc; subst hc; rfl,
          fun hc => absurd hc (by simp), fun c hc => absurd hc (by simp)⟩
    · exact pairwise_cancelSlot
        (pairwise_snoc_fresh (pairwise_cancelSlot hInv.distinct) restLt)
    · intro h
      rw [htr'] at h
      exact absurd h (by simp)
    · intro hh h
      exact Option.noConfusion h
    · intro hh h
      simp at h
      show hh < s.nextId + 1
      omega
    · intro hh h
      exact Nat.lt_succ_of_lt (hInv.slotTr hh h)
    · intro hh h
      exact Nat.lt_succ_of_lt (hInv.slotFl hh h)

/-- round_transition_callback: explicit reduction to begin_round. -/
theorem round_transition_callback_eq (s : GState) :
    round_transition_callback s = begin_round { s with
      transition_timer := none, flash_timer := none, flash_phase := 0,
      pending := cancelSlot s.pending s.flash_timer } := by
  unfold round_transition_callback cancelSlot app_timer_cancel
  cases hfl : s.flash_timer <;> simp [hfl]

/-- Firing any pending timer preserves the invariant. -/
theorem inv_fire (s : GState) (t : Timer) (ht : t ∈ s.pending) (hInv : GInv s) :
    GInv (fire_timer s t) := by
  have htOK := hInv.timers t ht
  have hp'mem : ∀ u ∈ s.pending.filter (fun u => u.id != t.id), u ∈ s.pending :=
    fun u hu => List.mem_of_mem_filter hu
  have hp'ne : ∀ u ∈ s.pending.filter (fun u => u.id != t.id), u.id ≠ t.id := by
    intro u hu
    have hx := (List.mem_filter.mp hu).2
    simpa using hx
  have hp'pair : (s.pending.filter (fun u => u.id != t.id)).Pairwise
      (fun a b => a.id ≠ b.id) :=
    hInv.distinct.sublist (List.filter_sublist s.pending)
  unfold fire_timer
  cases hcb : t.cb with
  | seqCb =>
    obtain ⟨hslot, hshow⟩ := htOK.2.1 hcb
    have noSeqP' : ∀ u ∈ s.pending.filter (fun u => u.id != t.id),
        u.cb ≠ TimerCb.seqCb := by
      intro u hu hc
      have hs2 := ((hInv.timers u (hp'mem u hu)).2.1 hc).1
      exact hp'ne u hu (Option.some.inj (hslot.symm.trans hs2)).symm
    simp only [run_cb]
    by_cases hfin : s.sequence.length ≤ s.show_index
    · rw [callback_finish { s with pending := s.pending.filter (fun u => u.id != t.id) } hshow hfin]
      refine ⟨?_, hp'pair, fun _ => rfl, hInv.transNotGo, ?_, hInv.inputLe,
        ?_, hInv.lenLe, hInv.seqVals, ?_, hInv.slotFb, hInv.slotTr, hInv.slotFl⟩
      · intro u hu
        have hum := hp'mem u hu
        refine ⟨(hInv.timers u hum).1, fun hc => absurd hc (noSeqP' u hu),
          (hInv.timers u hum).2.2.1, (hInv.timers u hum).2.2.2.1,
          (hInv.timers u hum).2.2.2.2⟩
      · intro h
        exact absurd h (by simp)
      · intro h
        exact absurd h (by simp)
      · intro hh h
        exact Option.noConfusion h
    · have hlt : s.show_index < s.sequence.length := by omega
      by_cases hph : s.show_phase = 0
      · rw [callback_display { s with pending := s.pending.filter (fun u => u.id != t.id) }
          hshow hph hlt (getD_lt_three hInv.seqVals hlt)]
        refine ⟨?_, ?_, ?_, hInv.transNotGo, fun _ => hInv.showNotTrans hshow, hInv.inputLe,
          fun _ => hInv.showLe hshow, hInv.lenLe, hInv.seqVals, ?_, ?_, ?_, ?_⟩
        · intro u hu
          rcases List.mem_append.mp hu with h1 | h1
          · have hum := hp'mem u h1
            refine ⟨Nat.lt_succ_of_lt (hInv.timers u hum).1,
              fun hc => absurd hc (noSeqP' u h1),
              (hInv.timers u hum).2.2.1, (hInv.timers u hum).2.2.2.1,
              (hInv.timers u hum).2.2.2.2⟩
          · simp only [List.mem_singleton] at h1
            subst h1
            exact ⟨Nat.lt_succ_self _, fun _ => ⟨rfl, hshow⟩,
              fun i hc => absurd hc (by simp), fun hc => absurd hc (by simp),
              fun c hc => absurd hc (by simp)⟩
        · exact pairwise_snoc_fresh hp'pair
            (fun u hu => (hInv.timers u (hp'mem u hu)).1)
        · intro h
          have hx := hInv.goNotShow h
          rw [hshow] at hx
          exact absurd hx (by simp)
        · intro hh h
          simp at h
          show hh < s.nextId + 1
          omega
        · intro hh h
          exact Nat.lt_succ_of_lt (hInv.slotFb hh h)
        · intro hh h
          exact Nat.lt_succ_of_lt (hInv.slotTr hh h)
        · intro hh h
          exact Nat.lt_succ_of_lt (hInv.slotFl hh h)
      · rw [callback_pause { s with pending := s.pending.filter (fun u => u.id != t.id) }
          hshow hph hlt (getD_lt_three hInv.seqVals hlt)]
        refine ⟨?_, ?_, ?_, hInv.transNotGo, fun _ => hInv.showNotTrans hshow, hInv.inputLe,
          ?_, hInv.lenLe, hInv.seqVals, ?_, ?_, ?_, ?_⟩
        · intro u hu
          rcases List.mem_append.mp hu with h1 | h1
          · have hum := hp'mem u h1
            refine ⟨Nat.lt_succ_of_lt (hInv.timers u hum).1,
              fun hc => absurd hc (noSeqP' u h1),
              (hInv.timers u hum).2.2.1, (hInv.timers u hum).2.2.2.1,
              (hInv.timers u hum).2.2.2.2⟩
          · simp only [List.mem_singleton] at h1
            subst h1
            exact ⟨Nat.lt_succ_self _, fun _ => ⟨rfl, hshow⟩,
              fun i hc => absurd hc (by simp), fun hc => absurd hc (by simp),
              fun c hc => absurd hc (by simp)⟩
        · exact pairwise_snoc_fresh hp'pair
            (fun u hu => (hInv.timers u (hp'mem u hu)).1)
        · intro h
          have hx := hInv.goNotShow h
          rw [hshow] at hx
          exact absurd hx (by simp)
        · intro _
          show s.show_index + 1 ≤ s.sequence.length
          omega
        · intro hh h
          simp at h
          show hh < s.nextId + 1
          omega
        · intro hh h
          exact Nat.lt_succ_of_lt (hInv.slotFb hh h)
        · intro hh h
          exact Nat.lt_succ_of_lt (hInv.slotTr hh h)
        · intro hh h
          exact Nat.lt_succ_of_lt (hInv.slotFl hh h)
  | clearGlyphCb i =>
    have hslot := htOK.2.2.1 i hcb
    have noGlyphP' : ∀ u ∈ s.pending.filter (fun u => u.id != t.id),
        ∀ j, u.cb ≠ TimerCb.clearGlyphCb j := by
      intro u hu j hc
      have hs2 := (hInv.timers u (hp'mem u hu)).2.2.1 j hc
      exact hp'ne u hu (Option.some.inj (hslot.symm.trans hs2)).symm
    simp only [run_cb]
    unfold clear_glyph_callback highlight_glyph
    by_cases hib : 2 < i
    · rw [if_pos hib]
      refine ⟨?_, hp'pair, hInv.goNotShow, hInv.transNotGo, hInv.showNotTrans,
        hInv.inputLe, hInv.showLe, hInv.lenLe, hInv.seqVals, hInv.slotSq,
        ?_, hInv.slotTr, hInv.slotFl⟩
      · intro u hu
        have hum := hp'mem u hu
        refine ⟨(hInv.timers u hum).1, (hInv.timers u hum).2.1,
          fun j hc => absurd hc (noGlyphP' u hu j),
          (hInv.timers u hum).2.2.2.1, (hInv.timers u hum).2.2.2.2⟩
      · intro hh h
        exact Option.noConfusion h
    · rw [if_neg hib]
      refine ⟨?_, hp'pair, hInv.goNotShow, hInv.transNotGo, hInv.showNotTrans,
        hInv.inputLe, hInv.showLe, hInv.lenLe, hInv.seqVals, hInv.slotSq,
        ?_, hInv.slotTr, hInv.slotFl⟩
      · intro u hu
        have hum := hp'mem u hu
        refine ⟨(hInv.timers u hum).1, (hInv.timers u hum).2.1,
          fun j hc => absurd hc (noGlyphP' u hu j),
          (hInv.timers u hum).2.2.2.1, (hInv.timers u hum).2.2.2.2⟩
      · intro hh h
        exact Option.noConfusion h
  | clearFeedbackCb =>
    simp only [run_cb]
    unfold clear_feedback_callback show_message
    refine ⟨?_, hp'pair, hInv.goNotShow, hInv.transNotGo, hInv.showNotTrans,
      hInv.inputLe, hInv.showLe, hInv.lenLe, hInv.seqVals, hInv.slotSq,
      hInv.slotFb, hInv.slotTr, hInv.slotFl⟩
    intro u hu
    exact hInv.timers u (hp'mem u hu)
  | transitionCb =>
    obtain ⟨hslot, htrans⟩ := htOK.2.2.2.1 hcb
    have hshow : s.showing = false := by
      by_cases hx : s.showing = true
      · have hy := hInv.showNotTrans hx
        rw [htrans] at hy
        exact absurd hy (by simp)
      · simpa using hx
    have noTransP' : ∀ u ∈ s.pending.filter (fun u => u.id != t.id),
        u.cb ≠ TimerCb.transitionCb := by
      intro u hu hc
      have hs2 := ((hInv.timers u (hp'mem u hu)).2.2.2.1 hc).1
      exact hp'ne u hu (Option.some.inj (hslot.symm.trans hs2)).symm
    simp only [run_cb]
    rw [round_transition_callback_eq]
    apply inv_begin_round
    · intro u hu
      have hu1 := mem_of_mem_cancelSlot hu
      have hum := hp'mem u hu1
      refine ⟨(hInv.timers u hum).1, (hInv.timers u hum).2.1,
        (hInv.timers u hum).2.2.1, fun hc => absurd hc (noTransP' u hu1), ?_⟩
      intro c hc
      have hs2 := (hInv.timers u hum).2.2.2.2 c hc
      cases hfl : s.flash_timer with
      | none =>
        rw [hfl] at hs2
        exact Option.noConfusion hs2
      | some h =>
        rw [hfl] at hs2 hu
        exact absurd (Option.some.inj hs2).symm (cancelSlot_ne hu)
    · exact pairwise_cancelSlot hp'pair
    · intro u hu hc
      have hu1 := mem_of_mem_cancelSlot hu
      have hs2 := ((hInv.timers u (hp'mem u hu1)).2.1 hc).2
      rw [hshow] at hs2
      exact absurd hs2 (by simp)
    · intro u hu hc
      exact noTransP' u (mem_of_mem_cancelSlot hu) hc
    · exact hInv.lenLe
    · exact hInv.seqVals
    · exact hInv.slotFb
    · intro hh h
      exact Option.noConfusion h
    · intro hh h
      exact Option.noConfusion h
  | flashCb c =>
    have hslot := htOK.2.2.2.2 c hcb
    have noFlashP' : ∀ u ∈ s.pending.filter (fun u => u.id != t.id),
        ∀ d, u.cb ≠ TimerCb.flashCb d := by
      intro u hu d hc
      have hs2 := (hInv.timers u (hp'mem u hu)).2.2.2.2 d hc
      exact hp'ne u hu (Option.some.inj (hslot.symm.trans hs2)).symm
    simp only [run_cb]
    unfold flash_animation_tick app_timer_register
    by_cases hdone : c ≤ s.flash_phase + 1
    · rw [if_pos hdone]
      refine ⟨?_, hp'pair, hInv.goNotShow, hInv.transNotGo, hInv.showNotTrans,
        hInv.inputLe, hInv.showLe, hInv.lenLe, hInv.seqVals, hInv.slotSq,
        hInv.slotFb, hInv.slotTr, ?_⟩
      · intro u hu
        have hum := hp'mem u hu
        refine ⟨(hInv.timers u hum).1, (hInv.timers u hum).2.1,
          (hInv.timers u hum).2.2.1, (hInv.timers u hum).2.2.2.1,
          fun d hc => absurd hc (noFlashP' u hu d)⟩
      · intro hh h
        exact Option.noConfusion h
    · rw [if_neg hdone]
      refine ⟨?_, ?_, hInv.goNotShow, hInv.transNotGo, hInv.showNotTrans,
        hInv.inputLe, hInv.showLe, hInv.lenLe, hInv.seqVals, ?_, ?_, ?_, ?_⟩
      · intro u hu
        rcases List.mem_append.mp hu with h1 | h1
        · have hum := hp'mem u h1
          refine ⟨Nat.lt_succ_of_lt (hInv.timers u hum).1,
            (hInv.timers u hum).2.1, (hInv.timers u hum).2.2.1,
            (hInv.timers u hum).2.2.2.1,
            fun d hc => absurd hc (noFlashP' u h1 d)⟩
        · simp only [List.mem_singleton] at h1
          subst h1
          exact ⟨Nat.lt_succ_self _, fun hc => absurd hc (by simp),
            fun i hc => absurd hc (by simp), fun hc => absurd hc (by simp),
            fun d hc => rfl⟩
      · exact pairwise_snoc_fresh hp'pair
          (fun u hu => (hInv.timers u (hp'mem u hu)).1)
      · intro hh h
        exact Nat.lt_succ_of_lt (hInv.slotSq hh h)
      · intro hh h
        exact Nat.lt_succ_of_lt (hInv.slotFb hh h)
      · intro hh h
        exact Nat.lt_succ_of_lt (hInv.slotTr hh h)
      · intro hh h
        simp at h
        show hh < s.nextId + 1
        omega

/-- The initial state satisfies the invariant. -/
theorem inv_init (rng : List Nat) : GInv (init_state rng) := by
  refine ⟨?_, ?_, ?_, ?_, ?_, ?_, ?_, ?_, ?_, ?_, ?_, ?_, ?_⟩ <;>
    simp [init_state]

/-- SELECT presses preserve the invariant. -/
theorem inv_select (s : GState) (hInv : GInv s) : GInv (on_select_press s) := by
  unfold on_select_press
  by_cases hgo : s.game_over = true
  · have hshow : s.showing = false := hInv.goNotShow hgo
    have htrans : s.transitioning = false := by
      by_cases hx : s.transitioning = true
      · have hy := hInv.transNotGo hx
        rw [hgo] at hy
        exact absurd hy (by simp)
      · simpa using hx
    have hsel : (if s.game_over = true then
        begin_round (add_random_step { s with sequence := [], round := 0 })
        else handle_input s 1) =
        begin_round { s with sequence := [s.rng.headD 0 % 3], round := 0,
                             rng := s.rng.tail } := by
      unfold add_random_step
      simp [hgo, MAX_SEQUENCE]
    rw [hsel]
    apply inv_begin_round
    · intro t ht
      exact hInv.timers t ht
    · exact hInv.distinct
    · intro t ht hc
      have hx := ((hInv.timers t ht).2.1 hc).2
      rw [hshow] at hx
      exact absurd hx (by simp)
    · intro t ht hc
      have hx := ((hInv.timers t ht).2.2.2.1 hc).2
      rw [htrans] at hx
      exact absurd hx (by simp)
    · show ([s.rng.headD 0 % 3] : List Nat).length ≤ 8
      simp
    · intro x hx
      simp only [List.mem_singleton] at hx
      subst hx
      omega
    · exact hInv.slotFb
    · exact hInv.slotTr
    · exact hInv.slotFl
  · rw [if_neg hgo]
    exact inv_handle_input s 1 (by omega) hInv

/-- Every reachable state satisfies the invariant. -/
theorem reachable_inv {s : GState} (h : Reachable s) : GInv s := by
  induction h with
  | init rng => exact inv_init rng
  | select _ ih => exact inv_select _ ih
  | up _ ih => exact inv_handle_input _ 0 (by omega) ih
  | down _ ih => exact inv_handle_input _ 2 (by omega) ih
  | fire _ hmem ih => exact inv_fire _ _ hmem ih

/-! ## C9: cursor bounds -/

/-- C9: in every reachable state the input cursor is at most the current
sequence length, the show cursor is at most the current sequence length while
showing, and the sequence length never exceeds MAX_SEQUENCE (8); together with
the strict guards `input_index < length` and `show_index < length` at every
sequence read, this keeps every read of the sequence array in bounds. -/
theorem cursor_bounds (s : GState) (h : Reachable s) :
    s.input_index ≤ s.sequence.length ∧
    (s.showing = true → s.show_index ≤ s.sequence.length) ∧
    s.sequence.length ≤ MAX_SEQUENCE := by
  have hx := reachable_inv h
  exact ⟨hx.inputLe, hx.showLe, hx.lenLe⟩

/-- C9 witness: the cursor bounds hold concretely in a freshly initialized
session. -/
theorem cursor_bounds_witness :
    Reachable (init_state []) ∧
    (init_state []).input_index ≤ (init_state []).sequence.length ∧
    (init_state []).sequence.length ≤ MAX_SEQUENCE :=
  ⟨Reachable.init [],
   (cursor_bounds (init_state []) (Reachable.init [])).1,
   (cursor_bounds (init_state []) (Reachable.init [])).2.2⟩

/-! ## C10: no stale sequence timer at begin_round entry -/

/-- Decidable check that no pending timer is the playback/sequence timer. -/
def noSeqPending (s : GState) : Bool :=
  s.pending.all (fun t => t.cb != TimerCb.seqCb)

/-- C10: in every reachable state from which begin_round can be invoked — a
game-over state (SELECT restart) or a state with a pending round-transition
timer (its firing calls begin_round) — no sequence/playback timer is pending,
so start_show_sequence's unconditional nulling of the stored sequence-timer
handle never abandons a live timer and no stale playback callback can fire
into the new round. -/
theorem no_stale_sequence_timer (s : GState) (h : Reachable s)
    (hcase : s.game_over = true ∨ ∃ t ∈ s.pending, t.cb = TimerCb.transitionCb) :
    noSeqPending s = true := by
  have hx := reachable_inv h
  unfold noSeqPending
  rw [List.all_eq_true]
  intro t ht
  rw [bne_iff_ne]
  intro hc
  have hshow := ((hx.timers t ht).2.1 hc).2
  rcases hcase with hgo | ⟨u, hu, hcu⟩
  · exact absurd (hshow.symm.trans (hx.goNotShow hgo)) (by decide)
  · have htr := ((hx.timers u hu).2.2.2.1 hcu).2
    exact absurd (htr.symm.trans (hx.showNotTrans hshow)) (by decide)

/-- C10 witness: a freshly initialized session is game-over and concretely has
no pending sequence timer. -/
theorem no_stale_sequence_timer_witness :
    (init_state []).game_over = true ∧ noSeqPending (init_state []) = true :=
  ⟨rfl, no_stale_sequence_timer (init_state []) (Reachable.init []) (Or.inl rfl)⟩

/-! ## C8: timer-category multiplicity -/

/-- Number of pending timers in refined category c (catOf', which gives the
untracked prompt-revert timer its own category 4). -/
def catCount (s : GState) (c : Nat) : Nat :=
  (s.pending.filter (fun t => catOf' t.cb == c)).length

/-- Number of pending timers in spec category c (catOf, which counts both
feedback timers — glyph clear and prompt revert — as category 1). -/
def specCatCount (s : GState) (c : Nat) : Nat :=
  (s.pending.filter (fun t => catOf t.cb == c)).length

/-- A pairwise-id-distinct list of timers all sharing one id has at most one
entry. -/
theorem length_le_one_of_same_id {l : List Timer} {n : Nat}
    (hp : l.Pairwise (fun a b => a.id ≠ b.id))
    (hall : ∀ t ∈ l, t.id = n) : l.length ≤ 1 := by
  cases l with
  | nil => simp
  | cons a l2 =>
    cases l2 with
    | nil => simp
    | cons b l3 =>
      have hab := (List.pairwise_cons.mp hp).1 b (by simp)
      have ha := hall a (by simp)
      have hb := hall b (by simp)
      exact absurd (ha.trans hb.symm) hab

/-- If every pending timer satisfying P has its id stored in the single handle
slot o, then at most one pending timer satisfies P. -/
theorem count_le_one_of_slot {l : List Timer} {P : Timer → Bool} (o : Option Nat)
    (hp : l.Pairwise (fun a b => a.id ≠ b.id))
    (hslot : ∀ t ∈ l, P t = true → o = some t.id) :
    (l.filter P).length ≤ 1 := by
  by_cases he : l.filter P = []
  · simp [he]
  · obtain ⟨a, ha⟩ := List.exists_mem_of_ne_nil _ he
    have hoa := hslot a (List.mem_of_mem_filter ha) ((List.mem_filter.mp ha).2)
    have hall : ∀ t ∈ l.filter P, t.id = a.id := by
      intro t htf
      have ho := hslot t (List.mem_of_mem_filter htf) ((List.mem_filter.mp htf).2)
      exact (Option.some.inj (hoa.symm.trans ho)).symm
    exact length_le_one_of_same_id (hp.sublist (List.filter_sublist l)) hall

/-- Performing one action from a reachable state lands in a reachable
state. -/
theorem stepAct_reachable {s : GState} (a : Act) (h : Reachable s) :
    Reachable (stepAct s a) := by
  cases a with
  | sel => exact Reachable.select h
  | up => exact Reachable.up h
  | down => exact Reachable.down h
  | fire i =>
    cases hg : s.pending[i]? with
    | none => simpa [stepAct, List.get?_eq_getElem?, hg] using h
    | some t =>
      simpa [stepAct, List.get?_eq_getElem?, hg] using
        Reachable.fire h (List.getElem?_mem hg)

/-- Running any action list from a reachable state lands in a reachable
state. -/
theorem runActs_reachable {s : GState} (acts : List Act) (h : Reachable s) :
    Reachable (runActs s acts) := by
  induction acts generalizing s with
  | nil => exact h
  | cons a rest ih => exact ih (stepAct_reachable a h)

/-- A concrete 30-action execution: restart via SELECT, complete rounds of
length 1 and 2 with correct presses (letting every feedback timer fire in
between), then in the length-3 round give two quick correct presses in a row
before either prompt-revert timer has fired. -/
def cexActs : List Act :=
  [Act.sel, Act.fire 0, Act.fire 0,
   Act.up,
   Act.fire 1, Act.fire 0, Act.fire 1, Act.fire 1, Act.fire 0,
   Act.fire 0, Act.fire 0, Act.fire 0, Act.fire 0,
   Act.up, Act.fire 0, Act.fire 0,
   Act.up,
   Act.fire 1, Act.fire 0, Act.fire 1, Act.fire 1, Act.fire 0,
   Act.fire 0, Act.fire 0, Act.fire 0, Act.fire 0, Act.fire 0, Act.fire 0,
   Act.up, Act.up]

/-- The state reached by cexActs from a fresh session whose RNG always yields
step 0 (UP). -/
def cexS : GState := runActs (init_state [0, 0, 0, 0]) cexActs

/-- C8 counterexample: a reachable state with more than one input-feedback
timer pending at the same instant.  After two quick correct (non-completing)
presses, the pending list holds two 200 ms prompt-revert timers and one glyph
clear timer — the prompt-revert timer registered at line 359 of the source is
anonymous, never stored in a handle slot, and never cancelled before a new one
is armed, so the claimed cancel-before-reschedule discipline fails for the
input-feedback category. -/
theorem duplicate_feedback_timers :
    Reachable cexS ∧ 2 ≤ specCatCount cexS 1 :=
  ⟨runActs_reachable cexActs (Reachable.init [0, 0, 0, 0]), by decide⟩

/-- C8 (amended): in every reachable state, at most one timer is pending in
each of the four handle-tracked categories — sequence/playback, glyph-clear
input feedback, round transition, and flash — since each of those is armed
only after cancelling the timer its slot stores.  Only the untracked 200 ms
prompt-revert feedback timer escapes this discipline. -/
theorem single_timer_per_tracked_category (s : GState) (h : Reachable s) :
    catCount s 0 ≤ 1 ∧ catCount s 1 ≤ 1 ∧ catCount s 2 ≤ 1 ∧ catCount s 3 ≤ 1 := by
  have hx := reachable_inv h
  unfold catCount
  refine ⟨?_, ?_, ?_, ?_⟩
  · refine count_le_one_of_slot s.seq_timer hx.distinct ?_
    intro t ht hP
    have hc : t.cb = TimerCb.seqCb := by
      revert hP; cases t.cb <;> simp [catOf']
    exact ((hx.timers t ht).2.1 hc).1
  · refine count_le_one_of_slot s.feedback_timer hx.distinct ?_
    intro t ht hP
    have hc : ∃ i, t.cb = TimerCb.clearGlyphCb i := by
      revert hP; cases t.cb <;> simp [catOf']
    obtain ⟨i, hc⟩ := hc
    exact (hx.timers t ht).2.2.1 i hc
  · refine count_le_one_of_slot s.transition_timer hx.distinct ?_
    intro t ht hP
    have hc : t.cb = TimerCb.transitionCb := by
      revert hP; cases t.cb <;> simp [catOf']
    exact ((hx.timers t ht).2.2.2.1 hc).1
  · refine count_le_one_of_slot s.flash_timer hx.distinct ?_
    intro t ht hP
    have hc : ∃ c, t.cb = TimerCb.flashCb c := by
      revert hP; cases t.cb <;> simp [catOf']
    obtain ⟨c, hc⟩ := hc
    exact (hx.timers t ht).2.2.2.2 c hc

/-- C8 witness: the tracked-category bounds hold concretely in a freshly
initialized session. -/
theorem single_timer_per_tracked_category_witness :
    catCount (init_state []) 0 ≤ 1 ∧ catCount (init_state []) 1 ≤ 1 ∧
    catCount (init_state []) 2 ≤ 1 ∧ catCount (init_state []) 3 ≤ 1 :=
  single_timer_per_tracked_category (init_state []) (Reachable.init [])
